import Mathlib

/-!
# NetDeviceQueue / NetDeviceQueueInterface (ns-3, `src/network/utils/net-device-queue-interface.cc`)

A shallow embedding of the transmit-queue flow-control code, followed by the RIP route entry
and RIP header of `src/internet/model/rip-header.cc`.

* A `Ptr<T>` is an `Option`: the null pointer is `none`.
* A `Callback` object is an `Option` of a callback handle: the null callback is `none`.
* A `void` method that mutates `this` becomes a function returning the new object.
  A method that may call `m_wakeCallback()` returns, next to the new object, the list of the
  callbacks it invoked, in order.
* What an invoked wake callback does to the queue is the parameter `run`; `notifyOnly`
  is the callback that does not touch the queue.
* `uint32_t bytes` is a `Nat`; the properties below hold for every natural number and so for
  every 32-bit value. Where a C++ conversion truncates (`uint8_t rteNumber`, the `uint32_t`
  returned by `RipHeader::GetSerializedSize`), the reduction modulo `2^w` is written out.
* A method that can end the process returns a `Run` (or an `Except`): the object at that
  moment and the fatal error, if any.
-/

namespace ns3

/-! ## External collaborators -/

/-- The abstract class `QueueLimits` (declared in `queue-limits.h`): the four virtual methods the
queue calls on its limiter, over the limiter's state `σ`. The concrete limiter is a parameter of
every queue operation that uses one. -/
structure QueueLimits (σ : Type) where
  /-- Method `Reset()`. -/
  Reset : σ → σ
  /-- Method `Completed(count)`. -/
  Completed : σ → Nat → σ
  /-- Method `Available() const`, a signed value. -/
  Available : σ → Int
  /-- Method `Queued(count)`. -/
  Queued : σ → Nat → σ

/-- Identity of a `NetDevice` object. -/
abbrev Device := Nat

/-- Ways in which the process is terminated. -/
inductive Fatal where
  /-- A failed `NS_ASSERT`. -/
  | assertFailed
  /-- The abort in `NetDeviceQueue::NotifyAggregatedObject`. -/
  | abortNoNetDevice
  /-- The abort in `NetDeviceQueueInterface::SetTxQueuesType`. -/
  | abortSetTxQueuesType
  /-- The abort in `NetDeviceQueueInterface::SetNTxQueues`. -/
  | abortSetNTxQueues
  /-- A method call through a null `Ptr`. -/
  | nullDereference
  /-- An attribute value refused by the attribute's checker. -/
  | invalidAttributeValue
  deriving DecidableEq, Repr

/-- The object a method leaves behind, and how the call ended: `fatal = none` when it returned,
`fatal = some f` when the process was terminated inside it (`state` is then the object at that
moment). -/
structure Run (α : Type) where
  state : α
  fatal : Option Fatal

/-- Modelled from the spec: the macro `NS_ASSERT(cond)` of `ns3/assert.h`, a fatal assertion
when `cond` is false and nothing otherwise. -/
def NS_ASSERT (cond : Bool) : Option Fatal :=
  if cond then none else some Fatal.assertFailed

/-- Modelled from the spec: the macro `NS_ABORT_MSG_IF(cond, msg)` of `ns3/abort.h`, which aborts
the process when `cond` is true; `f` stands for the message. -/
def NS_ABORT_MSG_IF (cond : Bool) (f : Fatal) : Option Fatal :=
  if cond then some f else none

/-! ## NetDeviceQueue -/

/-- The data members of class `NetDeviceQueue`; `σ` is the state of a limiter and `κ` the type of
wake-callback handles. -/
structure NetDeviceQueue (σ κ : Type) where
  m_stoppedByDevice : Bool
  m_stoppedByQueueLimits : Bool
  m_queueLimits : Option σ
  m_wakeCallback : Option κ
  m_device : Option Device

/-- What running a wake callback does to the queue it was registered on. -/
abbrev WakeRun (σ κ : Type) := κ → NetDeviceQueue σ κ → NetDeviceQueue σ κ

/-- The wake callback as a pure notification: it leaves the queue as it is. -/
def notifyOnly {σ κ : Type} : WakeRun σ κ := fun _ q => q

section Queue

variable {σ κ : Type}

/-- Constructor `NetDeviceQueue::NetDeviceQueue()`: both flags false; the `Ptr` members and the
callback are default-constructed, hence null. -/
def NetDeviceQueue.ctor : NetDeviceQueue σ κ :=
  { m_stoppedByDevice := false
    m_stoppedByQueueLimits := false
    m_queueLimits := none
    m_wakeCallback := none
    m_device := none }

/-- Method `NetDeviceQueue::IsStopped() const`. -/
def NetDeviceQueue.IsStopped (q : NetDeviceQueue σ κ) : Bool :=
  q.m_stoppedByDevice || q.m_stoppedByQueueLimits

/-- Method `NetDeviceQueue::Start()`. -/
def NetDeviceQueue.Start (q : NetDeviceQueue σ κ) : NetDeviceQueue σ κ × List κ :=
  ({ q with m_stoppedByDevice := false }, [])

/-- Method `NetDeviceQueue::Stop()`. -/
def NetDeviceQueue.Stop (q : NetDeviceQueue σ κ) : NetDeviceQueue σ κ × List κ :=
  ({ q with m_stoppedByDevice := true }, [])

/-- Method `NetDeviceQueue::Wake()`. -/
def NetDeviceQueue.Wake (run : WakeRun σ κ) (q : NetDeviceQueue σ κ) :
    NetDeviceQueue σ κ × List κ :=
  let wasStoppedByDevice := q.m_stoppedByDevice
  let q1 : NetDeviceQueue σ κ := { q with m_stoppedByDevice := false }
  match wasStoppedByDevice, q1.m_wakeCallback with
  | true, some cb => (run cb q1, [cb])
  | _, _ => (q1, [])

/-- Method `NetDeviceQueue::NotifyAggregatedObject(ndqi)`; `device` is the value of
`ndqi->GetObject<NetDevice>()`. -/
def NetDeviceQueue.NotifyAggregatedObject (q : NetDeviceQueue σ κ) (device : Option Device) :
    Run (NetDeviceQueue σ κ) :=
  let q1 : NetDeviceQueue σ κ := { q with m_device := device }
  { state := q1, fatal := NS_ABORT_MSG_IF q1.m_device.isNone Fatal.abortNoNetDevice }

/-- Method `NetDeviceQueue::SetWakeCallback(cb)`. -/
def NetDeviceQueue.SetWakeCallback (q : NetDeviceQueue σ κ) (cb : Option κ) :
    NetDeviceQueue σ κ × List κ :=
  ({ q with m_wakeCallback := cb }, [])

/-- Method `NetDeviceQueue::NotifyQueuedBytes(bytes)`. -/
def NetDeviceQueue.NotifyQueuedBytes (L : QueueLimits σ) (q : NetDeviceQueue σ κ) (bytes : Nat) :
    NetDeviceQueue σ κ × List κ :=
  match q.m_queueLimits with
  | none => (q, [])
  | some ql =>
    let ql1 := L.Queued ql bytes
    let q1 : NetDeviceQueue σ κ := { q with m_queueLimits := some ql1 }
    if L.Available ql1 ≥ 0 then (q1, [])
    else ({ q1 with m_stoppedByQueueLimits := true }, [])

/-- Method `NetDeviceQueue::NotifyTransmittedBytes(bytes)`. -/
def NetDeviceQueue.NotifyTransmittedBytes (L : QueueLimits σ) (run : WakeRun σ κ)
    (q : NetDeviceQueue σ κ) (bytes : Nat) : NetDeviceQueue σ κ × List κ :=
  match q.m_queueLimits with
  | none => (q, [])
  | some ql =>
    if bytes = 0 then (q, [])
    else
      let ql1 := L.Completed ql bytes
      let q1 : NetDeviceQueue σ κ := { q with m_queueLimits := some ql1 }
      if L.Available ql1 < 0 then (q1, [])
      else
        let wasStoppedByQueueLimits := q1.m_stoppedByQueueLimits
        let q2 : NetDeviceQueue σ κ := { q1 with m_stoppedByQueueLimits := false }
        match wasStoppedByQueueLimits, q2.m_wakeCallback with
        | true, some cb => (run cb q2, [cb])
        | _, _ => (q2, [])

/-- Method `NetDeviceQueue::ResetQueueLimits()`. -/
def NetDeviceQueue.ResetQueueLimits (L : QueueLimits σ) (q : NetDeviceQueue σ κ) :
    NetDeviceQueue σ κ × List κ :=
  match q.m_queueLimits with
  | none => (q, [])
  | some ql => ({ q with m_queueLimits := some (L.Reset ql) }, [])

/-- Method `NetDeviceQueue::SetQueueLimits(ql)`. -/
def NetDeviceQueue.SetQueueLimits (q : NetDeviceQueue σ κ) (ql : Option σ) :
    NetDeviceQueue σ κ × List κ :=
  ({ q with m_queueLimits := ql }, [])

/-- Method `NetDeviceQueue::GetQueueLimits()`. -/
def NetDeviceQueue.GetQueueLimits (q : NetDeviceQueue σ κ) : Option σ :=
  q.m_queueLimits

/-- The mutating operations a client can apply to a `NetDeviceQueue`. -/
inductive QueueOp (σ κ : Type) where
  | Start
  | Stop
  | Wake
  | NotifyQueuedBytes (bytes : Nat)
  | NotifyTransmittedBytes (bytes : Nat)
  | ResetQueueLimits
  | SetQueueLimits (ql : Option σ)
  | SetWakeCallback (cb : Option κ)

/-- One call: the method named by the operation, applied to the queue. -/
def NetDeviceQueue.step (L : QueueLimits σ) (run : WakeRun σ κ) (q : NetDeviceQueue σ κ) :
    QueueOp σ κ → NetDeviceQueue σ κ × List κ
  | QueueOp.Start => q.Start
  | QueueOp.Stop => q.Stop
  | QueueOp.Wake => q.Wake run
  | QueueOp.NotifyQueuedBytes bytes => q.NotifyQueuedBytes L bytes
  | QueueOp.NotifyTransmittedBytes bytes => q.NotifyTransmittedBytes L run bytes
  | QueueOp.ResetQueueLimits => q.ResetQueueLimits L
  | QueueOp.SetQueueLimits ql => q.SetQueueLimits ql
  | QueueOp.SetWakeCallback cb => q.SetWakeCallback cb

/-- A sequence of calls, first to last: the final queue and every callback invoked on the
way, in order. -/
def NetDeviceQueue.runOps (L : QueueLimits σ) (run : WakeRun σ κ) :
    NetDeviceQueue σ κ → List (QueueOp σ κ) → NetDeviceQueue σ κ × List κ
  | q, [] => (q, [])
  | q, op :: ops =>
    let r1 := q.step L run op
    let r2 := NetDeviceQueue.runOps L run r1.1 ops
    (r2.1, r1.2 ++ r2.2)

/-- Operations that only report traffic to the limiter or reset it. -/
def QueueOp.isLimitsTraffic : QueueOp σ κ → Bool
  | QueueOp.NotifyQueuedBytes _ => true
  | QueueOp.NotifyTransmittedBytes _ => true
  | QueueOp.ResetQueueLimits => true
  | _ => false

/-- Whether the operation is `Stop()`. -/
def QueueOp.isStop : QueueOp σ κ → Bool
  | QueueOp.Stop => true
  | _ => false

/-- Whether the operation is `NotifyQueuedBytes`. -/
def QueueOp.isNotifyQueuedBytes : QueueOp σ κ → Bool
  | QueueOp.NotifyQueuedBytes _ => true
  | _ => false

/-- The calls a device makes while it runs: byte reports and `Start`, `Stop`, `Wake`. -/
def QueueOp.isDeviceCall : QueueOp σ κ → Bool
  | QueueOp.NotifyQueuedBytes _ => true
  | QueueOp.NotifyTransmittedBytes _ => true
  | QueueOp.Start => true
  | QueueOp.Stop => true
  | QueueOp.Wake => true
  | _ => false

/-- How many of the two stop flags are set. -/
def NetDeviceQueue.flagsSet (q : NetDeviceQueue σ κ) : Nat :=
  (if q.m_stoppedByDevice then 1 else 0) + (if q.m_stoppedByQueueLimits then 1 else 0)

/-- A wake callback that re-enters the queue: the discipline hands `bytes` more bytes to the
device at once, which reports them through `NotifyQueuedBytes(bytes)`. -/
def enqueueOnWake (L : QueueLimits σ) (bytes : Nat) : WakeRun σ κ :=
  fun _ q => (q.NotifyQueuedBytes L bytes).1

end Queue

/-! ## Wake callbacks that call back into the queue -/

section Reentrancy

variable {σ κ : Type}

/-- The outcome of a run in which invoked callbacks make calls on the queue themselves: the
final queue, every callback invoked, nested invocations included, in the order the invocations
start, and every call made on the queue, by the sequence and by the callbacks, in the order the
calls are made. -/
structure NestedRun (σ κ : Type) where
  queue : NetDeviceQueue σ κ
  invoked : List κ
  calls : List (QueueOp σ κ)

/-- A sequence of calls, first to last, when an invoked callback `cb` runs `body cb` on the
queue. `Wake` and `NotifyTransmittedBytes` invoke the callback as their last statement, after
their own writes: the state the callback starts from is the one the call reaches with the
callback a pure notification, and the call returns when the callback does. -/
def NetDeviceQueue.runNested (L : QueueLimits σ)
    (body : κ → NetDeviceQueue σ κ → NestedRun σ κ) :
    NetDeviceQueue σ κ → List (QueueOp σ κ) → NestedRun σ κ
  | q, [] => { queue := q, invoked := [], calls := [] }
  | q, op :: ops =>
    let own := q.step L notifyOnly op
    match own.2 with
    | [] =>
      let r := NetDeviceQueue.runNested L body own.1 ops
      { queue := r.queue
        invoked := r.invoked
        calls := op :: r.calls }
    | cb :: _ =>
      let n := body cb own.1
      let r := NetDeviceQueue.runNested L body n.queue ops
      { queue := r.queue
        invoked := cb :: (n.invoked ++ r.invoked)
        calls := op :: (n.calls ++ r.calls) }

/-- The body of a callback that, invoked as `cb` on the queue `q`, makes the calls
`script cb q` on the queue, each of which may invoke the callback again. `depth` is how deep
the callbacks let themselves nest: a callback invoked at depth 0 makes no call. -/
def NetDeviceQueue.callbackBody (L : QueueLimits σ)
    (script : κ → NetDeviceQueue σ κ → List (QueueOp σ κ)) :
    Nat → κ → NetDeviceQueue σ κ → NestedRun σ κ
  | 0 => fun _ q => { queue := q, invoked := [], calls := [] }
  | depth + 1 => fun cb q =>
    NetDeviceQueue.runNested L (NetDeviceQueue.callbackBody L script depth) q (script cb q)

end Reentrancy

/-! ## A fixed-cap limiter -/

/-- Modelled from the spec: a fixed-cap Resource Limiter, with a capacity and the cumulative
queued and completed byte counts. -/
structure FixedCap where
  limit : Int
  queued : Nat
  completed : Nat
  deriving DecidableEq, Repr

/-- Modelled from the spec: the fixed-cap policy behind the `QueueLimits` contract.
`Available` is `limit - queued + completed` in exact integers; `Reset` clears the two counts. -/
def FixedCap.limits : QueueLimits FixedCap where
  Reset s := { s with queued := 0, completed := 0 }
  Completed s count := { s with completed := s.completed + count }
  Available s := s.limit - s.queued + s.completed
  Queued s count := { s with queued := s.queued + count }

/-- A fixed-cap limiter of capacity `cap` on which nothing was queued or completed yet. -/
def FixedCap.fresh (cap : Int) : FixedCap :=
  { limit := cap, queued := 0, completed := 0 }

/-- A newly constructed queue to which a fixed-cap limiter of capacity `cap`, not yet used, was
attached with `SetQueueLimits` and on which `cb` was registered with `SetWakeCallback`. -/
def FixedCap.freshQueue {κ : Type} (cap : Int) (cb : Option κ) : NetDeviceQueue FixedCap κ :=
  ((NetDeviceQueue.ctor.SetQueueLimits (some (FixedCap.fresh cap))).1.SetWakeCallback cb).1

/-! ## NetDeviceQueueInterface -/

/-- Identity of a registered `TypeId`. -/
abbrev TypeId := Nat

/-- Modelled from the spec: class `ObjectFactory` of `ns3/object-factory.h`, reduced to the
type it instantiates (unset after default construction). -/
structure ObjectFactory where
  m_tid : Option TypeId
  deriving DecidableEq, Repr

/-- Modelled from the spec: the default constructor `ObjectFactory()`. -/
def ObjectFactory.ctor : ObjectFactory := { m_tid := none }

/-- Modelled from the spec: method `ObjectFactory::SetTypeId(tid)`. -/
def ObjectFactory.SetTypeId (_f : ObjectFactory) (tid : TypeId) : ObjectFactory :=
  { m_tid := some tid }

/-- The data members of class `NetDeviceQueueInterface`; `ι` is the type of queue items.
The vector holds `Ptr<NetDeviceQueue>` values; every entry is an object of its own, identified
by its position. -/
structure NetDeviceQueueInterface (σ κ ι : Type) where
  m_txQueues : ObjectFactory
  m_txQueuesVector : List (Option (NetDeviceQueue σ κ))
  m_selectQueueCallback : Option (ι → Nat)

section Interface

variable {σ κ ι : Type}

/-- Constructor `NetDeviceQueueInterface::NetDeviceQueueInterface()`. -/
def NetDeviceQueueInterface.ctor : NetDeviceQueueInterface σ κ ι :=
  { m_txQueues := ObjectFactory.ctor
    m_txQueuesVector := []
    m_selectQueueCallback := some (fun _item => 0) }

/-- Method `NetDeviceQueueInterface::GetTxQueue(i) const`: the pointer returned, or the failed
assertion. -/
def NetDeviceQueueInterface.GetTxQueue (s : NetDeviceQueueInterface σ κ ι) (i : Nat) :
    Except Fatal (Option (NetDeviceQueue σ κ)) :=
  match NS_ASSERT (decide (i < s.m_txQueuesVector.length)) with
  | some f => Except.error f
  | none => Except.ok (s.m_txQueuesVector.getD i none)

/-- Method `NetDeviceQueueInterface::GetNTxQueues() const`. -/
def NetDeviceQueueInterface.GetNTxQueues (s : NetDeviceQueueInterface σ κ ι) : Nat :=
  s.m_txQueuesVector.length

/-- Method `NetDeviceQueueInterface::DoDispose()`. -/
def NetDeviceQueueInterface.DoDispose (s : NetDeviceQueueInterface σ κ ι) :
    Run (NetDeviceQueueInterface σ κ ι) :=
  { state := { s with m_txQueuesVector := [] }, fatal := none }

/-- The loop of `NotifyNewAggregate` over the vector: each queue in turn gets
`NotifyAggregatedObject`; the loop ends at the first fatal call. -/
def NetDeviceQueueInterface.notifyQueues (device : Option Device) :
    List (Option (NetDeviceQueue σ κ)) → Run (List (Option (NetDeviceQueue σ κ)))
  | [] => { state := [], fatal := none }
  | none :: rest => { state := none :: rest, fatal := some Fatal.nullDereference }
  | some tx :: rest =>
    let r := tx.NotifyAggregatedObject device
    match r.fatal with
    | some f => { state := some r.state :: rest, fatal := some f }
    | none =>
      let rs := NetDeviceQueueInterface.notifyQueues device rest
      { state := some r.state :: rs.state, fatal := rs.fatal }

/-- Method `NetDeviceQueueInterface::NotifyNewAggregate()`; `device` is the value of
`this->GetObject<NetDevice>()`. -/
def NetDeviceQueueInterface.NotifyNewAggregate (s : NetDeviceQueueInterface σ κ ι)
    (device : Option Device) : Run (NetDeviceQueueInterface σ κ ι) :=
  let r := NetDeviceQueueInterface.notifyQueues device s.m_txQueuesVector
  { state := { s with m_txQueuesVector := r.state }, fatal := r.fatal }

/-- Method `NetDeviceQueueInterface::SetTxQueuesType(type)`. -/
def NetDeviceQueueInterface.SetTxQueuesType (s : NetDeviceQueueInterface σ κ ι)
    (type : TypeId) : Run (NetDeviceQueueInterface σ κ ι) :=
  match NS_ABORT_MSG_IF (!s.m_txQueuesVector.isEmpty) Fatal.abortSetTxQueuesType with
  | some f => { state := s, fatal := some f }
  | none =>
    { state := { s with m_txQueues := ObjectFactory.ctor.SetTypeId type }, fatal := none }

/-- The loop of `SetNTxQueues`: `count` times, `push_back` of a newly created object. -/
def NetDeviceQueueInterface.createQueues (create : ObjectFactory → Option (NetDeviceQueue σ κ))
    (factory : ObjectFactory) :
    Nat → List (Option (NetDeviceQueue σ κ)) → List (Option (NetDeviceQueue σ κ))
  | 0, v => v
  | count + 1, v =>
    NetDeviceQueueInterface.createQueues create factory count (v ++ [create factory])

/-- Method `NetDeviceQueueInterface::SetNTxQueues(numTxQueues)`; `create` is the value of
`m_txQueues.Create()->GetObject<NetDeviceQueue>()` for a given factory. -/
def NetDeviceQueueInterface.SetNTxQueues (create : ObjectFactory → Option (NetDeviceQueue σ κ))
    (s : NetDeviceQueueInterface σ κ ι) (numTxQueues : Nat) :
    Run (NetDeviceQueueInterface σ κ ι) :=
  match NS_ASSERT (decide (numTxQueues > 0)) with
  | some f => { state := s, fatal := some f }
  | none =>
    match NS_ABORT_MSG_IF (!s.m_txQueuesVector.isEmpty) Fatal.abortSetNTxQueues with
    | some f => { state := s, fatal := some f }
    | none =>
      let v := NetDeviceQueueInterface.createQueues create s.m_txQueues numTxQueues
        s.m_txQueuesVector
      { state := { s with m_txQueuesVector := v }, fatal := none }

/-- Method `NetDeviceQueueInterface::SetSelectQueueCallback(cb)`. -/
def NetDeviceQueueInterface.SetSelectQueueCallback (s : NetDeviceQueueInterface σ κ ι)
    (cb : Option (ι → Nat)) : Run (NetDeviceQueueInterface σ κ ι) :=
  { state := { s with m_selectQueueCallback := cb }, fatal := none }

/-- Method `NetDeviceQueueInterface::GetSelectQueueCallback() const`. -/
def NetDeviceQueueInterface.GetSelectQueueCallback (s : NetDeviceQueueInterface σ κ ι) :
    Option (ι → Nat) :=
  s.m_selectQueueCallback

/-- The mutating operations on a `NetDeviceQueueInterface`. -/
inductive InterfaceOp (ι : Type) where
  | SetTxQueuesType (type : TypeId)
  | SetNTxQueues (numTxQueues : Nat)
  | SetSelectQueueCallback (cb : Option (ι → Nat))
  | NotifyNewAggregate (device : Option Device)
  | DoDispose

/-- Whether the operation replaces the selection policy. -/
def InterfaceOp.isSetSelectQueueCallback : InterfaceOp ι → Bool
  | InterfaceOp.SetSelectQueueCallback _ => true
  | _ => false

/-- One call: the method named by the operation, applied to the interface. -/
def NetDeviceQueueInterface.step (create : ObjectFactory → Option (NetDeviceQueue σ κ))
    (s : NetDeviceQueueInterface σ κ ι) : InterfaceOp ι → Run (NetDeviceQueueInterface σ κ ι)
  | InterfaceOp.SetTxQueuesType type => s.SetTxQueuesType type
  | InterfaceOp.SetNTxQueues numTxQueues => s.SetNTxQueues create numTxQueues
  | InterfaceOp.SetSelectQueueCallback cb => s.SetSelectQueueCallback cb
  | InterfaceOp.NotifyNewAggregate device => s.NotifyNewAggregate device
  | InterfaceOp.DoDispose => s.DoDispose

/-- A sequence of calls, first to last; a fatal call ends it. -/
def NetDeviceQueueInterface.runOps (create : ObjectFactory → Option (NetDeviceQueue σ κ)) :
    NetDeviceQueueInterface σ κ ι → List (InterfaceOp ι) → Run (NetDeviceQueueInterface σ κ ι)
  | s, [] => { state := s, fatal := none }
  | s, op :: ops =>
    let r := s.step create op
    match r.fatal with
    | some f => { state := r.state, fatal := some f }
    | none => NetDeviceQueueInterface.runOps create r.state ops

/-- Whether the operation is the disposal. -/
def InterfaceOp.isDoDispose : InterfaceOp ι → Bool
  | InterfaceOp.DoDispose => true
  | _ => false

/-- Modelled from the spec: the checker `MakeUintegerChecker<uint16_t>(1, 65535)` that
`GetTypeId` attaches to attribute `NTxQueues`; it accepts the counts in `[1, 65535]`. -/
def NTxQueuesChecker (numTxQueues : Nat) : Bool :=
  decide (1 ≤ numTxQueues ∧ numTxQueues ≤ 65535)

/-- Modelled from the spec: creation of an interface through the attribute system, as declared
in `GetTypeId`. Both attributes are `ATTR_CONSTRUCT`: after the constructor, `TxQueuesType` is
set through `SetTxQueuesType` and then `NTxQueues` through `SetNTxQueues`, in the order of
their declaration; a count the checker refuses is a fatal error and no object results. -/
def NetDeviceQueueInterface.construct (create : ObjectFactory → Option (NetDeviceQueue σ κ))
    (type : TypeId) (numTxQueues : Nat) : Except Fatal (NetDeviceQueueInterface σ κ ι) :=
  if NTxQueuesChecker numTxQueues then
    let r1 := (NetDeviceQueueInterface.ctor : NetDeviceQueueInterface σ κ ι).SetTxQueuesType type
    match r1.fatal with
    | some f => Except.error f
    | none =>
      let r2 := r1.state.SetNTxQueues create numTxQueues
      match r2.fatal with
      | some f => Except.error f
      | none => Except.ok r2.state
  else Except.error Fatal.invalidAttributeValue

end Interface


/-! ## RIP route entries (`src/internet/model/rip-header.cc`) -/

/-- The value of a `uint8_t` obtained from an unsigned value: its low eight bits. -/
def toU8 (v : Nat) : Fin 256 := ⟨v % 256, Nat.mod_lt v (by decide)⟩

/-- Modelled from the spec: class `Buffer::Iterator` of `ns3/buffer.h`, a position `cur` in the
bytes `data` of a buffer. Reading or writing at a position outside the buffer fails an
assertion. -/
structure Buffer.Iterator where
  data : List (Fin 256)
  cur : Nat

/-- Modelled from the spec: method `Buffer::Iterator::WriteU8(data)`: store one byte at the
position and advance by one. -/
def Buffer.Iterator.WriteU8 (i : Buffer.Iterator) (data : Fin 256) :
    Except Fatal Buffer.Iterator :=
  if i.cur < i.data.length then
    Except.ok { data := i.data.set i.cur data, cur := i.cur + 1 }
  else Except.error Fatal.assertFailed

/-- Modelled from the spec: method `Buffer::Iterator::WriteHtonU16(data)`: the two bytes of a
16-bit value in network order, most significant first. -/
def Buffer.Iterator.WriteHtonU16 (i : Buffer.Iterator) (data : Nat) :
    Except Fatal Buffer.Iterator := do
  let i1 ← i.WriteU8 (toU8 (data / 256))
  i1.WriteU8 (toU8 data)

/-- Modelled from the spec: method `Buffer::Iterator::WriteHtonU32(data)`: the four bytes of a
32-bit value in network order, most significant first. -/
def Buffer.Iterator.WriteHtonU32 (i : Buffer.Iterator) (data : Nat) :
    Except Fatal Buffer.Iterator := do
  let i1 ← i.WriteU8 (toU8 (data / 16777216))
  let i2 ← i1.WriteU8 (toU8 (data / 65536))
  let i3 ← i2.WriteU8 (toU8 (data / 256))
  i3.WriteU8 (toU8 data)

/-- Modelled from the spec: method `Buffer::Iterator::ReadU8()`: the byte at the position,
and the iterator advanced by one. -/
def Buffer.Iterator.ReadU8 (i : Buffer.Iterator) : Except Fatal (Nat × Buffer.Iterator) :=
  match i.data[i.cur]? with
  | some b => Except.ok (b.val, { i with cur := i.cur + 1 })
  | none => Except.error Fatal.assertFailed

/-- Modelled from the spec: method `Buffer::Iterator::ReadNtohU16()`: a 16-bit value read in
network order. -/
def Buffer.Iterator.ReadNtohU16 (i : Buffer.Iterator) :
    Except Fatal (Nat × Buffer.Iterator) := do
  let (b0, i1) ← i.ReadU8
  let (b1, i2) ← i1.ReadU8
  pure (b0 * 256 + b1, i2)

/-- Modelled from the spec: method `Buffer::Iterator::ReadNtohU32()`: a 32-bit value read in
network order. -/
def Buffer.Iterator.ReadNtohU32 (i : Buffer.Iterator) :
    Except Fatal (Nat × Buffer.Iterator) := do
  let (b0, i1) ← i.ReadU8
  let (b1, i2) ← i1.ReadU8
  let (b2, i3) ← i2.ReadU8
  let (b3, i4) ← i3.ReadU8
  pure (b0 * 16777216 + b1 * 65536 + b2 * 256 + b3, i4)

/-- Modelled from the spec: class `Ipv4Address`, a 32-bit address in host order. -/
structure Ipv4Address where
  m_address : Nat
  deriving DecidableEq, Repr

/-- Modelled from the spec: method `Ipv4Address::Get() const`. -/
def Ipv4Address.Get (a : Ipv4Address) : Nat := a.m_address

/-- Modelled from the spec: method `Ipv4Address::Set(address)`. -/
def Ipv4Address.Set (_a : Ipv4Address) (address : Nat) : Ipv4Address := { m_address := address }

/-- Modelled from the spec: class `Ipv4Mask`, a 32-bit mask in host order. -/
structure Ipv4Mask where
  m_mask : Nat
  deriving DecidableEq, Repr

/-- Modelled from the spec: method `Ipv4Mask::Get() const`. -/
def Ipv4Mask.Get (m : Ipv4Mask) : Nat := m.m_mask

/-- Modelled from the spec: method `Ipv4Mask::Set(mask)`. -/
def Ipv4Mask.Set (_m : Ipv4Mask) (mask : Nat) : Ipv4Mask := { m_mask := mask }

/-- The data members of class `RipRte`: `m_tag` is a `uint16_t`, `m_metric` a `uint32_t`. -/
structure RipRte where
  m_tag : Nat
  m_prefix : Ipv4Address
  m_subnetMask : Ipv4Mask
  m_nextHop : Ipv4Address
  m_metric : Nat
  deriving DecidableEq, Repr

/-- The members hold values of their C++ types: 16 bits for the tag, 32 bits for the others. -/
def RipRte.InRange (rte : RipRte) : Prop :=
  rte.m_tag < 65536 ∧ rte.m_prefix.Get < 4294967296 ∧ rte.m_subnetMask.Get < 4294967296 ∧
    rte.m_nextHop.Get < 4294967296 ∧ rte.m_metric < 4294967296

/-- Constructor `RipRte::RipRte()`: tag 0, prefix 127.0.0.1, mask and next hop 0.0.0.0,
metric 16. -/
def RipRte.ctor : RipRte :=
  { m_tag := 0
    m_prefix := { m_address := 2130706433 }
    m_subnetMask := { m_mask := 0 }
    m_nextHop := { m_address := 0 }
    m_metric := 16 }

/-- Method `RipRte::GetSerializedSize() const`. -/
def RipRte.GetSerializedSize (_rte : RipRte) : Nat := 20

/-- Method `RipRte::Serialize(i) const`: the iterator after the six writes; its `data` is the
buffer written to. -/
def RipRte.Serialize (rte : RipRte) (i : Buffer.Iterator) : Except Fatal Buffer.Iterator := do
  let i1 ← i.WriteHtonU16 2
  let i2 ← i1.WriteHtonU16 rte.m_tag
  let i3 ← i2.WriteHtonU32 rte.m_prefix.Get
  let i4 ← i3.WriteHtonU32 rte.m_subnetMask.Get
  let i5 ← i4.WriteHtonU32 rte.m_nextHop.Get
  i5.WriteHtonU32 rte.m_metric

/-- Method `RipRte::Deserialize(i)`: the value returned and the entry afterwards. -/
def RipRte.Deserialize (rte : RipRte) (i : Buffer.Iterator) : Except Fatal (Nat × RipRte) := do
  let (tmp, i1) ← i.ReadNtohU16
  if tmp ≠ 2 then
    pure (0, rte)
  else do
    let (tag, i2) ← i1.ReadNtohU16
    let rte1 : RipRte := { rte with m_tag := tag }
    let (pfx, i3) ← i2.ReadNtohU32
    let rte2 : RipRte := { rte1 with m_prefix := rte1.m_prefix.Set pfx }
    let (mask, i4) ← i3.ReadNtohU32
    let rte3 : RipRte := { rte2 with m_subnetMask := rte2.m_subnetMask.Set mask }
    let (hop, i5) ← i4.ReadNtohU32
    let rte4 : RipRte := { rte3 with m_nextHop := rte3.m_nextHop.Set hop }
    let (metric, _) ← i5.ReadNtohU32
    let rte5 : RipRte := { rte4 with m_metric := metric }
    pure (rte5.GetSerializedSize, rte5)

/-- The two bytes of a 16-bit value, most significant first. -/
def bigEndian16 (v : Nat) : List (Fin 256) := [toU8 (v / 256), toU8 v]

/-- The four bytes of a 32-bit value, most significant first. -/
def bigEndian32 (v : Nat) : List (Fin 256) :=
  [toU8 (v / 16777216), toU8 (v / 65536), toU8 (v / 256), toU8 v]

/-- The wire format of a route entry as the specification words it: address family 2 first,
then the tag, the prefix, the subnet mask, the next hop and the metric, every field
big-endian. -/
def RipRte.wireFormat (rte : RipRte) : List (Fin 256) :=
  bigEndian16 2 ++ bigEndian16 rte.m_tag ++ bigEndian32 rte.m_prefix.Get ++
    bigEndian32 rte.m_subnetMask.Get ++ bigEndian32 rte.m_nextHop.Get ++
    bigEndian32 rte.m_metric

/-- Successive `WriteU8` calls, one for each byte of a list. -/
def Buffer.Iterator.writeAll (i : Buffer.Iterator) : List (Fin 256) →
    Except Fatal Buffer.Iterator
  | [] => Except.ok i
  | b :: bs =>
    match i.WriteU8 b with
    | Except.ok i1 => Buffer.Iterator.writeAll i1 bs
    | Except.error f => Except.error f


/-! ## RIP header (`src/internet/model/rip-header.cc`) -/

/-- Modelled from the spec: method `Buffer::Iterator::WriteU16(data)`: the two bytes of a 16-bit
value, least significant first. -/
def Buffer.Iterator.WriteU16 (i : Buffer.Iterator) (data : Nat) :
    Except Fatal Buffer.Iterator := do
  let i1 ← i.WriteU8 (toU8 data)
  i1.WriteU8 (toU8 (data / 256))

/-- Modelled from the spec: method `Buffer::Iterator::ReadU16()`: a 16-bit value read least
significant byte first. -/
def Buffer.Iterator.ReadU16 (i : Buffer.Iterator) : Except Fatal (Nat × Buffer.Iterator) := do
  let (byte0, i1) ← i.ReadU8
  let (byte1, i2) ← i1.ReadU8
  pure (byte1 * 256 + byte0, i2)

/-- Modelled from the spec: method `Buffer::Iterator::Next(delta)`: advance by `delta` bytes;
moving past the end of the buffer fails an assertion. -/
def Buffer.Iterator.Next (i : Buffer.Iterator) (delta : Nat) : Except Fatal Buffer.Iterator :=
  match NS_ASSERT (decide (i.cur + delta ≤ i.data.length)) with
  | some f => Except.error f
  | none => Except.ok { i with cur := i.cur + delta }

/-- Modelled from the spec: method `Buffer::Iterator::GetRemainingSize() const`: the number of
bytes from the position to the end of the buffer. -/
def Buffer.Iterator.GetRemainingSize (i : Buffer.Iterator) : Nat :=
  i.data.length - i.cur

/-- The data members of class `RipHeader`: `m_command` is a `uint8_t`, `m_rteList` a
`std::list<RipRte>`. -/
structure RipHeader where
  m_command : Nat
  m_rteList : List RipRte
  deriving DecidableEq, Repr

/-- Modelled from the spec: enumerator `RipHeader::REQUEST` of `Command_e` (`rip-header.h`). -/
def RipHeader.REQUEST : Nat := 1

/-- Modelled from the spec: enumerator `RipHeader::RESPONSE` of `Command_e` (`rip-header.h`). -/
def RipHeader.RESPONSE : Nat := 2

/-- Constructor `RipHeader::RipHeader()`: command 0 and an empty list. -/
def RipHeader.ctor : RipHeader := { m_command := 0, m_rteList := [] }

/-- Method `RipHeader::GetSerializedSize() const`; the value returned is a `uint32_t`. -/
def RipHeader.GetSerializedSize (h : RipHeader) : Nat :=
  (4 + h.m_rteList.length * RipRte.ctor.GetSerializedSize) % 4294967296

/-- The loop of `RipHeader::Serialize` over the list: each entry is serialized through a copy
of the iterator, then the iterator is advanced by the size of the entry. -/
def RipHeader.serializeRtes : List RipRte → Buffer.Iterator → Except Fatal Buffer.Iterator
  | [], i => Except.ok i
  | rte :: rest, i =>
    match rte.Serialize i with
    | Except.error f => Except.error f
    | Except.ok w =>
      match ({ data := w.data, cur := i.cur } : Buffer.Iterator).Next rte.GetSerializedSize with
      | Except.error f => Except.error f
      | Except.ok i1 => RipHeader.serializeRtes rest i1

/-- Method `RipHeader::Serialize(start) const`: the iterator after the writes; its `data` is
the buffer written to. -/
def RipHeader.Serialize (h : RipHeader) (start : Buffer.Iterator) :
    Except Fatal Buffer.Iterator := do
  let i1 ← start.WriteU8 (toU8 h.m_command)
  let i2 ← i1.WriteU8 2
  let i3 ← i2.WriteU16 0
  RipHeader.serializeRtes h.m_rteList i3

/-- The loop of `RipHeader::Deserialize`, `count` rounds: a new `RipRte` is deserialized at the
position, the iterator is advanced by the value `RipRte::Deserialize` returned, and the entry is
appended to the list. -/
def RipHeader.deserializeRtes :
    Nat → Buffer.Iterator → List RipRte → Except Fatal (List RipRte)
  | 0, _, l => Except.ok l
  | count + 1, i, l =>
    match RipRte.ctor.Deserialize i with
    | Except.error f => Except.error f
    | Except.ok (size, rte) =>
      match i.Next size with
      | Except.error f => Except.error f
      | Except.ok i1 => RipHeader.deserializeRtes count i1 (l ++ [rte])

/-- Method `RipHeader::Deserialize(start)`: the value returned and the header afterwards. The
number of rounds of the loop is a `uint8_t`: the quotient of the remaining size by 20, reduced
modulo 256. -/
def RipHeader.Deserialize (h : RipHeader) (start : Buffer.Iterator) :
    Except Fatal (Nat × RipHeader) := do
  let (temp, i1) ← start.ReadU8
  if temp = RipHeader.REQUEST ∨ temp = RipHeader.RESPONSE then
    let h1 : RipHeader := { h with m_command := temp }
    let (version, i2) ← i1.ReadU8
    if version ≠ 2 then
      pure (0, h1)
    else
      let (mbz, i3) ← i2.ReadU16
      if mbz ≠ 0 then
        pure (0, h1)
      else
        let rteNumber := (i3.GetRemainingSize / 20) % 256
        let l ← RipHeader.deserializeRtes rteNumber i3 h1.m_rteList
        let h2 : RipHeader := { h1 with m_rteList := l }
        pure (h2.GetSerializedSize, h2)
  else
    pure (0, h)

/-- The wire formats of the route entries of a list, one after the other in list order. -/
def RipHeader.rtesWireFormat : List RipRte → List (Fin 256)
  | [] => []
  | rte :: rest => rte.wireFormat ++ RipHeader.rtesWireFormat rest

/-- The wire format of a header as the specification words it: the command byte, the version
byte 2, two zero bytes, then the 20 bytes of every route entry in list order. -/
def RipHeader.wireFormat (h : RipHeader) : List (Fin 256) :=
  [toU8 h.m_command, 2, 0, 0] ++ RipHeader.rtesWireFormat h.m_rteList

/-- The rejection condition as the specification words it, on the four bytes found at the
position: the first byte is neither `REQUEST` nor `RESPONSE`, or the version byte is not 2, or
the 16-bit field made of the next two bytes is not 0. -/
def RipHeader.rejects (b0 b1 b2 b3 : Fin 256) : Prop :=
  (b0.val ≠ RipHeader.REQUEST ∧ b0.val ≠ RipHeader.RESPONSE) ∨ b1.val ≠ 2 ∨
    ¬ (b2.val = 0 ∧ b3.val = 0)


/-! ## Properties of NetDeviceQueue -/

section QueueProperties

variable {σ κ : Type}

/-- C1: in every state reached from construction by a sequence of Start, Stop, Wake,
NotifyQueuedBytes, NotifyTransmittedBytes, ResetQueueLimits, SetQueueLimits and SetWakeCallback
calls, `IsStopped()` is `stoppedByDevice OR stoppedByQueueLimits`; it is false in the freshly
constructed state, and in any state it is true exactly when the two flags are not both false;
each of the four flag combinations is reached by some sequence of calls. -/
theorem C1_isStopped_eq_or_of_flags (L : QueueLimits σ) (run : WakeRun σ κ)
    (ops : List (QueueOp σ κ)) :
    ((NetDeviceQueue.runOps L run NetDeviceQueue.ctor ops).1.IsStopped =
      ((NetDeviceQueue.runOps L run NetDeviceQueue.ctor ops).1.m_stoppedByDevice ||
        (NetDeviceQueue.runOps L run NetDeviceQueue.ctor ops).1.m_stoppedByQueueLimits)) ∧
    ((NetDeviceQueue.ctor : NetDeviceQueue σ κ).IsStopped = false) ∧
    (∀ q : NetDeviceQueue σ κ, q.IsStopped = true ↔
      ¬ (q.m_stoppedByDevice = false ∧ q.m_stoppedByQueueLimits = false)) ∧
    (∀ a b : Bool, ∃ tr : List (QueueOp FixedCap Unit),
      (NetDeviceQueue.runOps FixedCap.limits notifyOnly NetDeviceQueue.ctor tr).1.m_stoppedByDevice
          = a ∧
      (NetDeviceQueue.runOps FixedCap.limits notifyOnly
          NetDeviceQueue.ctor tr).1.m_stoppedByQueueLimits = b) := by
  refine ⟨rfl, rfl, ?_, ?_⟩
  · intro q
    cases hd : q.m_stoppedByDevice <;> cases hl : q.m_stoppedByQueueLimits <;>
      simp [NetDeviceQueue.IsStopped, hd, hl]
  · intro a b
    cases a <;> cases b
    · exact ⟨[], rfl, rfl⟩
    · exact ⟨[QueueOp.SetQueueLimits (some (FixedCap.fresh 0)), QueueOp.NotifyQueuedBytes 1],
        rfl, rfl⟩
    · exact ⟨[QueueOp.Stop], rfl, rfl⟩
    · exact ⟨[QueueOp.SetQueueLimits (some (FixedCap.fresh 0)), QueueOp.NotifyQueuedBytes 1,
        QueueOp.Stop], rfl, rfl⟩


/-- C2: `NotifyTransmittedBytes(bytes)` with no limiter attached or `bytes = 0` returns the
queue (limiter included) unchanged and invokes no callback. Otherwise the limiter receives
`Completed(bytes)`; if `Available()` is then negative nothing else changes and no callback is
invoked; else `stoppedByQueueLimits` becomes false, and the registered callback is invoked once
if `stoppedByQueueLimits` was true, and no callback is invoked in any other case. -/
theorem C2_notifyTransmittedBytes_cases (L : QueueLimits σ) (run : WakeRun σ κ)
    (q : NetDeviceQueue σ κ) (bytes : Nat) :
    ((q.m_queueLimits = none ∨ bytes = 0) → q.NotifyTransmittedBytes L run bytes = (q, [])) ∧
    (∀ ql : σ, q.m_queueLimits = some ql → bytes ≠ 0 →
      (L.Available (L.Completed ql bytes) < 0 →
        q.NotifyTransmittedBytes L run bytes =
          ({ q with m_queueLimits := some (L.Completed ql bytes) }, [])) ∧
      (¬ L.Available (L.Completed ql bytes) < 0 →
        (q.NotifyTransmittedBytes L notifyOnly bytes).1 =
          { q with m_queueLimits := some (L.Completed ql bytes),
                   m_stoppedByQueueLimits := false } ∧
        (q.NotifyTransmittedBytes L run bytes).2 =
          (if q.m_stoppedByQueueLimits = true then q.m_wakeCallback.toList else []) ∧
        ((q.NotifyTransmittedBytes L run bytes).2.length = 1 ↔
          (q.m_stoppedByQueueLimits = true ∧ q.m_wakeCallback.isSome = true)) ∧
        (q.NotifyTransmittedBytes L run bytes).2.length ≤ 1)) := by
  refine ⟨?_, ?_⟩
  · intro h
    unfold NetDeviceQueue.NotifyTransmittedBytes
    cases hq : q.m_queueLimits with
    | none => rfl
    | some ql =>
      rcases h with h | h
      · rw [hq] at h; cases h
      · simp [h]
  · intro ql hq hb
    refine ⟨?_, ?_⟩
    · intro hneg
      unfold NetDeviceQueue.NotifyTransmittedBytes
      simp [hq, hb, hneg]
    · intro hpos
      unfold NetDeviceQueue.NotifyTransmittedBytes
      cases hs : q.m_stoppedByQueueLimits <;> cases hc : q.m_wakeCallback <;>
        simp [hq, hb, hpos, hs, hc, notifyOnly]

/-- C2 at a concrete queue: limit-stopped, callback `7` registered, a fixed-cap limiter of
capacity 100 with 110 bytes queued; `NotifyTransmittedBytes(70)` clears the flag and invokes
the callback once. -/
theorem C2_notifyTransmittedBytes_cases_witness :
    (({ m_stoppedByDevice := false, m_stoppedByQueueLimits := true,
        m_queueLimits := some { limit := 100, queued := 110, completed := 0 },
        m_wakeCallback := some 7, m_device := none } :
        NetDeviceQueue FixedCap Nat).NotifyTransmittedBytes FixedCap.limits notifyOnly 70).2
      = [7] :=
  (((C2_notifyTransmittedBytes_cases FixedCap.limits notifyOnly
      ({ m_stoppedByDevice := false, m_stoppedByQueueLimits := true,
         m_queueLimits := some { limit := 100, queued := 110, completed := 0 },
         m_wakeCallback := some 7, m_device := none } : NetDeviceQueue FixedCap Nat) 70).2
      { limit := 100, queued := 110, completed := 0 } rfl (by decide)).2 (by decide)).2.1


/-- C3: `NotifyQueuedBytes(bytes)` with no limiter attached returns the queue unchanged;
with a limiter attached the limiter receives `Queued(bytes)`, `stoppedByQueueLimits` becomes
its previous value OR `Available() < 0`, and nothing else changes; no callback is invoked in
either case, whatever the callback would do. -/
theorem C3_notifyQueuedBytes_cases (L : QueueLimits σ) (run : WakeRun σ κ)
    (q : NetDeviceQueue σ κ) (bytes : Nat) :
    (q.m_queueLimits = none → q.NotifyQueuedBytes L bytes = (q, [])) ∧
    (∀ ql : σ, q.m_queueLimits = some ql →
      (q.NotifyQueuedBytes L bytes).1 =
        { q with m_queueLimits := some (L.Queued ql bytes),
                 m_stoppedByQueueLimits :=
                   (q.m_stoppedByQueueLimits || decide (L.Available (L.Queued ql bytes) < 0)) }) ∧
    (q.NotifyQueuedBytes L bytes).2 = [] ∧
    (q.step L run (QueueOp.NotifyQueuedBytes bytes)).2 = [] := by
  have htrace : (q.NotifyQueuedBytes L bytes).2 = [] := by
    unfold NetDeviceQueue.NotifyQueuedBytes
    cases hq : q.m_queueLimits with
    | none => rfl
    | some ql =>
      by_cases hav : L.Available (L.Queued ql bytes) ≥ 0 <;> simp [hav]
  refine ⟨?_, ?_, htrace, htrace⟩
  · intro hq
    unfold NetDeviceQueue.NotifyQueuedBytes
    rw [hq]
  · intro ql hq
    unfold NetDeviceQueue.NotifyQueuedBytes
    by_cases hav : L.Available (L.Queued ql bytes) < 0
    · have hge : ¬ L.Available (L.Queued ql bytes) ≥ 0 := not_le.mpr hav
      simp [hq, hav, hge]
    · have hge : L.Available (L.Queued ql bytes) ≥ 0 := not_lt.mp hav
      cases q
      simp_all

/-- C3 at a concrete queue: a fixed-cap limiter of capacity 100 with 60 bytes queued;
`NotifyQueuedBytes(50)` records the bytes and sets `stoppedByQueueLimits`. -/
theorem C3_notifyQueuedBytes_cases_witness :
    (({ m_stoppedByDevice := false, m_stoppedByQueueLimits := false,
        m_queueLimits := some { limit := 100, queued := 60, completed := 0 },
        m_wakeCallback := some 7, m_device := none } :
        NetDeviceQueue FixedCap Nat).NotifyQueuedBytes FixedCap.limits 50).1
      = { m_stoppedByDevice := false, m_stoppedByQueueLimits := true,
          m_queueLimits := some { limit := 100, queued := 110, completed := 0 },
          m_wakeCallback := some 7, m_device := none } :=
  (C3_notifyQueuedBytes_cases FixedCap.limits notifyOnly
      ({ m_stoppedByDevice := false, m_stoppedByQueueLimits := false,
         m_queueLimits := some { limit := 100, queued := 60, completed := 0 },
         m_wakeCallback := some 7, m_device := none } : NetDeviceQueue FixedCap Nat) 50).2.1
      { limit := 100, queued := 60, completed := 0 } rfl

/-- C4: after `Wake()` `stoppedByDevice` is false and nothing else of the queue has changed;
the registered callback is invoked once if `stoppedByDevice` was true, and no callback is
invoked in any other case; when `stoppedByDevice` was already false the call returns the queue
unchanged without invoking a callback. -/
theorem C4_wake_cases (run : WakeRun σ κ) (q : NetDeviceQueue σ κ) :
    (q.Wake notifyOnly).1 = { q with m_stoppedByDevice := false } ∧
    (q.Wake run).2 = (if q.m_stoppedByDevice = true then q.m_wakeCallback.toList else []) ∧
    ((q.Wake run).2.length = 1 ↔
      (q.m_stoppedByDevice = true ∧ q.m_wakeCallback.isSome = true)) ∧
    (q.Wake run).2.length ≤ 1 ∧
    (q.m_stoppedByDevice = false → q.Wake run = (q, [])) := by
  unfold NetDeviceQueue.Wake
  cases q with
  | mk d l ql cb dev =>
    cases d <;> cases cb <;> simp [notifyOnly]

/-- C4 at a concrete queue that is not stopped by the device and has callback `7` registered:
`Wake()` returns it unchanged and invokes nothing. -/
theorem C4_wake_cases_witness :
    ({ m_stoppedByDevice := false, m_stoppedByQueueLimits := true, m_queueLimits := none,
       m_wakeCallback := some 7, m_device := none } : NetDeviceQueue FixedCap Nat).Wake notifyOnly
      = ({ m_stoppedByDevice := false, m_stoppedByQueueLimits := true, m_queueLimits := none,
           m_wakeCallback := some 7, m_device := none }, []) :=
  (C4_wake_cases notifyOnly
    ({ m_stoppedByDevice := false, m_stoppedByQueueLimits := true, m_queueLimits := none,
       m_wakeCallback := some 7, m_device := none } : NetDeviceQueue FixedCap Nat)).2.2.2.2 rfl

/-- C5: a fresh queue with callback `7` registered and a fixed-cap limiter of capacity 100
attached. After `NotifyQueuedBytes(60)`: `Available() = 40`, not limit-stopped. After a further
`NotifyQueuedBytes(50)`: `Available() = -10`, limit-stopped. After a further
`NotifyTransmittedBytes(70)`: `Available() = 60`, not limit-stopped, and over the whole trace
the callback was invoked exactly once. -/
theorem C5_fixedCap_trace :
    let setup : List (QueueOp FixedCap Nat) :=
      [QueueOp.SetWakeCallback (some 7), QueueOp.SetQueueLimits (some (FixedCap.fresh 100))]
    let r1 := NetDeviceQueue.runOps FixedCap.limits notifyOnly NetDeviceQueue.ctor
      (setup ++ [QueueOp.NotifyQueuedBytes 60])
    let r2 := NetDeviceQueue.runOps FixedCap.limits notifyOnly NetDeviceQueue.ctor
      (setup ++ [QueueOp.NotifyQueuedBytes 60, QueueOp.NotifyQueuedBytes 50])
    let r3 := NetDeviceQueue.runOps FixedCap.limits notifyOnly NetDeviceQueue.ctor
      (setup ++ [QueueOp.NotifyQueuedBytes 60, QueueOp.NotifyQueuedBytes 50,
        QueueOp.NotifyTransmittedBytes 70])
    (r1.1.m_queueLimits.map FixedCap.limits.Available = some 40 ∧
      r1.1.m_stoppedByQueueLimits = false) ∧
    (r2.1.m_queueLimits.map FixedCap.limits.Available = some (-10) ∧
      r2.1.m_stoppedByQueueLimits = true) ∧
    (r3.1.m_queueLimits.map FixedCap.limits.Available = some 60 ∧
      r3.1.m_stoppedByQueueLimits = false) ∧
    r1.2 = [] ∧ r2.2 = [] ∧ r3.2 = [7] := by
  refine ⟨⟨rfl, rfl⟩, ⟨rfl, rfl⟩, ⟨rfl, rfl⟩, rfl, rfl, rfl⟩

/-- C6: on a queue with no limiter attached, every sequence of `NotifyQueuedBytes`,
`NotifyTransmittedBytes` and `ResetQueueLimits` calls, with any byte counts, leaves
`stoppedByQueueLimits` (indeed the whole queue) as it was and invokes no callback. -/
theorem C6_no_limiter_traffic_inert (L : QueueLimits σ) (run : WakeRun σ κ)
    (q : NetDeviceQueue σ κ) (ops : List (QueueOp σ κ))
    (hq : q.m_queueLimits = none) (hops : ∀ op ∈ ops, op.isLimitsTraffic = true) :
    (NetDeviceQueue.runOps L run q ops).1.m_stoppedByQueueLimits = q.m_stoppedByQueueLimits ∧
    (NetDeviceQueue.runOps L run q ops).2 = [] ∧
    (NetDeviceQueue.runOps L run q ops).1 = q := by
  have key : NetDeviceQueue.runOps L run q ops = (q, []) := by
    induction ops with
    | nil => rfl
    | cons op ops ih =>
      have hop : op.isLimitsTraffic = true := hops op (List.mem_cons_self op ops)
      have hrest : ∀ o ∈ ops, o.isLimitsTraffic = true :=
        fun o ho => hops o (List.mem_cons_of_mem op ho)
      have hstep : q.step L run op = (q, []) := by
        cases op <;>
          simp [QueueOp.isLimitsTraffic] at hop <;>
          simp [NetDeviceQueue.step, NetDeviceQueue.NotifyQueuedBytes,
            NetDeviceQueue.NotifyTransmittedBytes, NetDeviceQueue.ResetQueueLimits, hq]
      simp [NetDeviceQueue.runOps, hstep, ih hrest]
  rw [key]
  exact ⟨rfl, rfl, rfl⟩

/-- C6 at a concrete queue: limit-stopped, callback `7` registered, no limiter attached; three
traffic calls leave the flag true and invoke nothing. -/
theorem C6_no_limiter_traffic_inert_witness :
    (NetDeviceQueue.runOps FixedCap.limits notifyOnly
      ({ m_stoppedByDevice := false, m_stoppedByQueueLimits := true, m_queueLimits := none,
         m_wakeCallback := some 7, m_device := none } : NetDeviceQueue FixedCap Nat)
      [QueueOp.NotifyQueuedBytes 5, QueueOp.NotifyTransmittedBytes 3,
        QueueOp.ResetQueueLimits]).1.m_stoppedByQueueLimits = true ∧
    (NetDeviceQueue.runOps FixedCap.limits notifyOnly
      ({ m_stoppedByDevice := false, m_stoppedByQueueLimits := true, m_queueLimits := none,
         m_wakeCallback := some 7, m_device := none } : NetDeviceQueue FixedCap Nat)
      [QueueOp.NotifyQueuedBytes 5, QueueOp.NotifyTransmittedBytes 3,
        QueueOp.ResetQueueLimits]).2 = [] :=
  have h := C6_no_limiter_traffic_inert FixedCap.limits notifyOnly
    ({ m_stoppedByDevice := false, m_stoppedByQueueLimits := true, m_queueLimits := none,
       m_wakeCallback := some 7, m_device := none } : NetDeviceQueue FixedCap Nat)
    [QueueOp.NotifyQueuedBytes 5, QueueOp.NotifyTransmittedBytes 3, QueueOp.ResetQueueLimits]
    rfl (by decide)
  ⟨h.1, h.2.1⟩

/-- C10: `Start()` sets `stoppedByDevice` to false and `Stop()` sets it to true, whatever the
state before, changing nothing else; neither invokes a callback, whatever the callback would
do; on a queue stopped by the device with a callback registered, `Start()` invokes nothing
where `Wake()` invokes that callback. -/
theorem C10_start_stop (L : QueueLimits σ) (run : WakeRun σ κ) (q : NetDeviceQueue σ κ) :
    q.Start.1 = { q with m_stoppedByDevice := false } ∧
    q.Stop.1 = { q with m_stoppedByDevice := true } ∧
    (q.step L run QueueOp.Start).2 = [] ∧
    (q.step L run QueueOp.Stop).2 = [] ∧
    (∀ cb : κ, q.m_stoppedByDevice = true → q.m_wakeCallback = some cb →
      q.Start.1.m_stoppedByDevice = false ∧ (q.step L run QueueOp.Start).2 = [] ∧
      (q.step L run QueueOp.Wake).2 = [cb]) := by
  refine ⟨rfl, rfl, rfl, rfl, ?_⟩
  intro cb hd hc
  refine ⟨rfl, rfl, ?_⟩
  simp [NetDeviceQueue.step, NetDeviceQueue.Wake, hd, hc]

/-- C10 at a concrete queue stopped by the device with callback `7` registered: `Start()`
clears the flag and invokes nothing, `Wake()` invokes the callback. -/
theorem C10_start_stop_witness :
    (({ m_stoppedByDevice := true, m_stoppedByQueueLimits := false, m_queueLimits := none,
        m_wakeCallback := some 7, m_device := none } :
        NetDeviceQueue FixedCap Nat).step FixedCap.limits notifyOnly QueueOp.Start).2 = [] ∧
    (({ m_stoppedByDevice := true, m_stoppedByQueueLimits := false, m_queueLimits := none,
        m_wakeCallback := some 7, m_device := none } :
        NetDeviceQueue FixedCap Nat).step FixedCap.limits notifyOnly QueueOp.Wake).2 = [7] :=
  ((C10_start_stop FixedCap.limits notifyOnly
    ({ m_stoppedByDevice := true, m_stoppedByQueueLimits := false, m_queueLimits := none,
       m_wakeCallback := some 7, m_device := none } : NetDeviceQueue FixedCap Nat)).2.2.2.2
    7 rfl rfl).2

end QueueProperties

/-! ## Properties of NetDeviceQueueInterface -/

section InterfaceProperties

variable {σ κ ι : Type}

/-- C7: on an interface that holds at least one queue, `SetNTxQueues` with any count and
`SetTxQueuesType` with any type end fatally (the abort of the method, or for a zero count the
assertion before it), and the interface at that moment, its queue collection included, is what
it was before the call. -/
theorem C7_reconfigure_fatal (create : ObjectFactory → Option (NetDeviceQueue σ κ))
    (s : NetDeviceQueueInterface σ κ ι) (h : 1 ≤ s.GetNTxQueues)
    (numTxQueues : Nat) (type : TypeId) :
    ((s.SetNTxQueues create numTxQueues).fatal =
        some (if numTxQueues = 0 then Fatal.assertFailed else Fatal.abortSetNTxQueues) ∧
      (s.SetNTxQueues create numTxQueues).state = s ∧
      (s.SetNTxQueues create numTxQueues).state.m_txQueuesVector = s.m_txQueuesVector) ∧
    ((s.SetTxQueuesType type).fatal = some Fatal.abortSetTxQueuesType ∧
      (s.SetTxQueuesType type).state = s ∧
      (s.SetTxQueuesType type).state.m_txQueuesVector = s.m_txQueuesVector) := by
  have hne : s.m_txQueuesVector.isEmpty = false := by
    cases hv : s.m_txQueuesVector with
    | nil => simp [NetDeviceQueueInterface.GetNTxQueues, hv] at h
    | cons a v => rfl
  refine ⟨?_, ?_⟩
  · by_cases hn : numTxQueues = 0
    · subst hn
      simp [NetDeviceQueueInterface.SetNTxQueues, NS_ASSERT]
    · have hpos : 0 < numTxQueues := Nat.pos_of_ne_zero hn
      simp [NetDeviceQueueInterface.SetNTxQueues, NS_ASSERT, NS_ABORT_MSG_IF, hne, hn, hpos]
  · simp [NetDeviceQueueInterface.SetTxQueuesType, NS_ABORT_MSG_IF, hne]

/-- C7 at a concrete interface holding one freshly constructed queue: `SetNTxQueues(4)`
aborts. -/
theorem C7_reconfigure_fatal_witness :
    (({ m_txQueues := ObjectFactory.ctor, m_txQueuesVector := [some NetDeviceQueue.ctor],
        m_selectQueueCallback := none } :
        NetDeviceQueueInterface FixedCap Nat Nat).SetNTxQueues
          (fun _ => some NetDeviceQueue.ctor) 4).fatal = some Fatal.abortSetNTxQueues :=
  (C7_reconfigure_fatal (fun _ => some NetDeviceQueue.ctor)
    ({ m_txQueues := ObjectFactory.ctor, m_txQueuesVector := [some NetDeviceQueue.ctor],
       m_selectQueueCallback := none } : NetDeviceQueueInterface FixedCap Nat Nat)
    (by decide) 4 0).1.1

/-- C8: `GetTxQueue(i)` returns a pointer exactly when `i < GetNTxQueues()`; it then returns
the entry at position `i` of the vector; for `i >= GetNTxQueues()` the assertion fails. The
method is `const`: its result depends on the vector alone, so it is the same after a call that
leaves the vector alone, such as `SetSelectQueueCallback`. -/
theorem C8_getTxQueue_bounds (s : NetDeviceQueueInterface σ κ ι) (i : Nat) :
    ((∃ p, s.GetTxQueue i = Except.ok p) ↔ i < s.GetNTxQueues) ∧
    (∀ h : i < s.m_txQueuesVector.length,
      s.GetTxQueue i = Except.ok (s.m_txQueuesVector.get ⟨i, h⟩)) ∧
    (s.GetNTxQueues ≤ i → s.GetTxQueue i = Except.error Fatal.assertFailed) ∧
    (∀ cb : Option (ι → Nat), (s.SetSelectQueueCallback cb).state.GetTxQueue i = s.GetTxQueue i)
    := by
  have hok : ∀ h : i < s.m_txQueuesVector.length,
      s.GetTxQueue i = Except.ok (s.m_txQueuesVector.get ⟨i, h⟩) := by
    intro h
    simp [NetDeviceQueueInterface.GetTxQueue, NS_ASSERT, h, List.getD_eq_getElem]
  have hbad : s.GetNTxQueues ≤ i → s.GetTxQueue i = Except.error Fatal.assertFailed := by
    intro h
    have h2 : ¬ i < s.m_txQueuesVector.length := Nat.not_lt.mpr h
    simp [NetDeviceQueueInterface.GetTxQueue, NS_ASSERT, h2]
  refine ⟨⟨?_, ?_⟩, hok, hbad, fun _ => rfl⟩
  · rintro ⟨p, hp⟩
    by_contra hlt
    rw [hbad (Nat.not_lt.mp hlt)] at hp
    cases hp
  · intro h
    exact ⟨_, hok h⟩

/-- C8 at a concrete interface with two queues: `GetTxQueue(1)` is the second entry and
`GetTxQueue(2)` fails. -/
theorem C8_getTxQueue_bounds_witness :
    (({ m_txQueues := ObjectFactory.ctor,
        m_txQueuesVector := [some NetDeviceQueue.ctor, some NetDeviceQueue.ctor.Stop.1],
        m_selectQueueCallback := none } :
        NetDeviceQueueInterface FixedCap Nat Nat).GetTxQueue 2) =
      Except.error Fatal.assertFailed :=
  (C8_getTxQueue_bounds
    ({ m_txQueues := ObjectFactory.ctor,
       m_txQueuesVector := [some NetDeviceQueue.ctor, some NetDeviceQueue.ctor.Stop.1],
       m_selectQueueCallback := none } : NetDeviceQueueInterface FixedCap Nat Nat) 2).2.2.1
    (by decide)

/-- The selection policy is changed by `SetSelectQueueCallback` only. -/
theorem InterfaceOp.step_selectQueueCallback
    (create : ObjectFactory → Option (NetDeviceQueue σ κ))
    (s : NetDeviceQueueInterface σ κ ι) (op : InterfaceOp ι)
    (hop : op.isSetSelectQueueCallback = false) :
    (s.step create op).state.m_selectQueueCallback = s.m_selectQueueCallback := by
  cases op with
  | SetTxQueuesType type =>
    simp only [NetDeviceQueueInterface.step, NetDeviceQueueInterface.SetTxQueuesType]
    split <;> rfl
  | SetNTxQueues n =>
    simp only [NetDeviceQueueInterface.step, NetDeviceQueueInterface.SetNTxQueues]
    split
    · rfl
    · split <;> rfl
  | SetSelectQueueCallback cb => simp [InterfaceOp.isSetSelectQueueCallback] at hop
  | NotifyNewAggregate device => rfl
  | DoDispose => rfl

/-- The selection policy after a sequence of calls without `SetSelectQueueCallback`. -/
theorem NetDeviceQueueInterface.runOps_selectQueueCallback
    (create : ObjectFactory → Option (NetDeviceQueue σ κ)) (ops : List (InterfaceOp ι)) :
    ∀ s : NetDeviceQueueInterface σ κ ι,
      (∀ op ∈ ops, op.isSetSelectQueueCallback = false) →
      (NetDeviceQueueInterface.runOps create s ops).state.m_selectQueueCallback =
        s.m_selectQueueCallback := by
  induction ops with
  | nil => intro s _; rfl
  | cons op ops ih =>
    intro s hops
    have h1 := InterfaceOp.step_selectQueueCallback create s op
      (hops op (List.mem_cons_self op ops))
    have hrest : ∀ o ∈ ops, o.isSetSelectQueueCallback = false :=
      fun o ho => hops o (List.mem_cons_of_mem op ho)
    simp only [NetDeviceQueueInterface.runOps]
    split
    · exact h1
    · rw [ih _ hrest, h1]

/-- C9: on an interface reached from construction by any calls other than
`SetSelectQueueCallback` (so with any number of queues configured), the callback returned by
`GetSelectQueueCallback()` is non-null and returns 0 on every item; after
`SetSelectQueueCallback(p)`, `GetSelectQueueCallback()` is `p`. -/
theorem C9_default_select_zero (create : ObjectFactory → Option (NetDeviceQueue σ κ))
    (ops : List (InterfaceOp ι)) (hops : ∀ op ∈ ops, op.isSetSelectQueueCallback = false)
    (item : ι) :
    ((NetDeviceQueueInterface.runOps create NetDeviceQueueInterface.ctor
        ops).state.GetSelectQueueCallback.map (fun cb => cb item) = some 0) ∧
    (∀ (s : NetDeviceQueueInterface σ κ ι) (p : Option (ι → Nat)),
      (s.SetSelectQueueCallback p).state.GetSelectQueueCallback = p ∧
      (s.SetSelectQueueCallback p).fatal = none) := by
  refine ⟨?_, fun _ _ => ⟨rfl, rfl⟩⟩
  unfold NetDeviceQueueInterface.GetSelectQueueCallback
  rw [NetDeviceQueueInterface.runOps_selectQueueCallback create ops _ hops]
  rfl

/-- C9 at a concrete run: type 0 and eight queues configured on a new interface; the policy
maps item `5` to queue 0. -/
theorem C9_default_select_zero_witness :
    ((NetDeviceQueueInterface.runOps (fun _ => some NetDeviceQueue.ctor)
        (NetDeviceQueueInterface.ctor : NetDeviceQueueInterface FixedCap Nat Nat)
        [InterfaceOp.SetTxQueuesType 0, InterfaceOp.SetNTxQueues 8]
        ).state.GetSelectQueueCallback.map (fun cb => cb 5) = some 0) ∧
    (NetDeviceQueueInterface.runOps (fun _ => some NetDeviceQueue.ctor)
        (NetDeviceQueueInterface.ctor : NetDeviceQueueInterface FixedCap Nat Nat)
        [InterfaceOp.SetTxQueuesType 0, InterfaceOp.SetNTxQueues 8]).state.GetNTxQueues = 8 :=
  ⟨(C9_default_select_zero (fun _ => some NetDeviceQueue.ctor)
      [InterfaceOp.SetTxQueuesType 0, InterfaceOp.SetNTxQueues 8] (by decide) 5).1, rfl⟩

/-- The loop of `SetNTxQueues` appends `count` copies of what the factory creates. -/
theorem NetDeviceQueueInterface.createQueues_eq
    (create : ObjectFactory → Option (NetDeviceQueue σ κ)) (factory : ObjectFactory)
    (count : Nat) : ∀ v : List (Option (NetDeviceQueue σ κ)),
      NetDeviceQueueInterface.createQueues create factory count v =
        v ++ List.replicate count (create factory) := by
  induction count with
  | zero => intro v; simp [NetDeviceQueueInterface.createQueues]
  | succ n ih =>
    intro v
    simp [NetDeviceQueueInterface.createQueues, ih, List.replicate_succ]

/-- The loop of `NotifyNewAggregate` keeps the number of entries. -/
theorem NetDeviceQueueInterface.notifyQueues_length (device : Option Device) :
    ∀ v : List (Option (NetDeviceQueue σ κ)),
      (NetDeviceQueueInterface.notifyQueues device v).state.length = v.length := by
  intro v
  induction v with
  | nil => rfl
  | cons p rest ih =>
    cases p with
    | none => rfl
    | some tx =>
      simp only [NetDeviceQueueInterface.notifyQueues]
      split
      · rfl
      · simp [ih]

/-- On an interface that holds a queue, a call other than the disposal keeps the count. -/
theorem NetDeviceQueueInterface.step_count
    (create : ObjectFactory → Option (NetDeviceQueue σ κ))
    (s : NetDeviceQueueInterface σ κ ι) (op : InterfaceOp ι)
    (hs : 1 ≤ s.GetNTxQueues) (hop : op.isDoDispose = false) :
    (s.step create op).state.GetNTxQueues = s.GetNTxQueues := by
  have hne : s.m_txQueuesVector.isEmpty = false := by
    cases hv : s.m_txQueuesVector with
    | nil => simp [NetDeviceQueueInterface.GetNTxQueues, hv] at hs
    | cons a v => rfl
  cases op with
  | SetTxQueuesType type =>
    simp [NetDeviceQueueInterface.step, NetDeviceQueueInterface.SetTxQueuesType,
      NS_ABORT_MSG_IF, hne]
  | SetNTxQueues n =>
    simp only [NetDeviceQueueInterface.step, NetDeviceQueueInterface.SetNTxQueues]
    split
    · rfl
    · simp [NS_ABORT_MSG_IF, hne]
  | SetSelectQueueCallback cb => rfl
  | NotifyNewAggregate device =>
    simp [NetDeviceQueueInterface.step, NetDeviceQueueInterface.NotifyNewAggregate,
      NetDeviceQueueInterface.GetNTxQueues, NetDeviceQueueInterface.notifyQueues_length]
  | DoDispose => simp [InterfaceOp.isDoDispose] at hop

/-- On an interface that holds a queue, calls other than the disposal keep the count. -/
theorem NetDeviceQueueInterface.runOps_count
    (create : ObjectFactory → Option (NetDeviceQueue σ κ)) (ops : List (InterfaceOp ι)) :
    ∀ s : NetDeviceQueueInterface σ κ ι, 1 ≤ s.GetNTxQueues →
      (∀ op ∈ ops, op.isDoDispose = false) →
      (NetDeviceQueueInterface.runOps create s ops).state.GetNTxQueues = s.GetNTxQueues := by
  induction ops with
  | nil => intro s _ _; rfl
  | cons op ops ih =>
    intro s hs hops
    have h1 := NetDeviceQueueInterface.step_count create s op hs
      (hops op (List.mem_cons_self op ops))
    have hrest : ∀ o ∈ ops, o.isDoDispose = false :=
      fun o ho => hops o (List.mem_cons_of_mem op ho)
    simp only [NetDeviceQueueInterface.runOps]
    split
    · exact h1
    · rw [ih _ (h1 ▸ hs) hrest, h1]

/-- Attribute construction with an accepted count on an empty vector: the result. -/
theorem NetDeviceQueueInterface.construct_ok
    (create : ObjectFactory → Option (NetDeviceQueue σ κ)) (type : TypeId) (n : Nat)
    (hn : 1 ≤ n ∧ n ≤ 65535) :
    (NetDeviceQueueInterface.construct create type n :
        Except Fatal (NetDeviceQueueInterface σ κ ι)) =
      Except.ok
        { m_txQueues := ObjectFactory.ctor.SetTypeId type
          m_txQueuesVector := List.replicate n (create (ObjectFactory.ctor.SetTypeId type))
          m_selectQueueCallback := some (fun _item => 0) } := by
  have hpos : 0 < n := hn.1
  simp [NetDeviceQueueInterface.construct, NTxQueuesChecker, hn, NetDeviceQueueInterface.ctor,
    NetDeviceQueueInterface.SetTxQueuesType, NetDeviceQueueInterface.SetNTxQueues,
    NS_ASSERT, NS_ABORT_MSG_IF, hpos, NetDeviceQueueInterface.createQueues_eq]

/-- `SetNTxQueues` with a positive count on an interface without queues. -/
theorem NetDeviceQueueInterface.SetNTxQueues_empty
    (create : ObjectFactory → Option (NetDeviceQueue σ κ))
    (s : NetDeviceQueueInterface σ κ ι) (n : Nat) (hn : 1 ≤ n)
    (hs : s.m_txQueuesVector = []) :
    s.SetNTxQueues create n =
      { state := { s with m_txQueuesVector := List.replicate n (create s.m_txQueues) }
        fatal := none } := by
  have hpos : 0 < n := hn
  simp only [NetDeviceQueueInterface.SetNTxQueues, NS_ASSERT, NS_ABORT_MSG_IF, hs,
    NetDeviceQueueInterface.createQueues_eq, gt_iff_lt, hpos, decide_True, if_true,
    List.isEmpty_nil, Bool.not_true, List.nil_append]
  rfl

/-- C11, as stated, fails: after the default configuration (one queue) and the disposal the
interface holds no queue, and a `SetNTxQueues(65536)` that follows returns normally and leaves
65536 queues. -/
theorem C11_count_range_counterexample :
    ((NetDeviceQueueInterface.runOps (fun _ => some NetDeviceQueue.ctor)
        (NetDeviceQueueInterface.ctor : NetDeviceQueueInterface FixedCap Nat Nat)
        [InterfaceOp.SetTxQueuesType 0, InterfaceOp.SetNTxQueues 1,
          InterfaceOp.DoDispose]).fatal = none ∧
      ¬ (1 ≤ (NetDeviceQueueInterface.runOps (fun _ => some NetDeviceQueue.ctor)
        (NetDeviceQueueInterface.ctor : NetDeviceQueueInterface FixedCap Nat Nat)
        [InterfaceOp.SetTxQueuesType 0, InterfaceOp.SetNTxQueues 1,
          InterfaceOp.DoDispose]).state.GetNTxQueues)) ∧
    (((NetDeviceQueueInterface.runOps (fun _ => some NetDeviceQueue.ctor)
        (NetDeviceQueueInterface.ctor : NetDeviceQueueInterface FixedCap Nat Nat)
        [InterfaceOp.SetTxQueuesType 0, InterfaceOp.SetNTxQueues 1,
          InterfaceOp.DoDispose]).state.SetNTxQueues
            (fun _ => some NetDeviceQueue.ctor) 65536).fatal = none ∧
      ¬ (((NetDeviceQueueInterface.runOps (fun _ => some NetDeviceQueue.ctor)
        (NetDeviceQueueInterface.ctor : NetDeviceQueueInterface FixedCap Nat Nat)
        [InterfaceOp.SetTxQueuesType 0, InterfaceOp.SetNTxQueues 1,
          InterfaceOp.DoDispose]).state.SetNTxQueues
            (fun _ => some NetDeviceQueue.ctor) 65536).state.GetNTxQueues ≤ 65535)) := by
  refine ⟨⟨rfl, by decide⟩, ?_⟩
  rw [NetDeviceQueueInterface.SetNTxQueues_empty _ _ 65536 (by decide) rfl]
  refine ⟨rfl, ?_⟩
  simp only [NetDeviceQueueInterface.GetNTxQueues, List.length_replicate]
  decide

/-- C11, amended: creation through the attributes is refused for a count outside
`[1, 65535]`; for a count `n` inside it succeeds with `GetNTxQueues() = n`, and in every state
reached from there by calls other than the disposal `GetNTxQueues()` is still `n`, hence
between 1 and 65535; `SetNTxQueues(0)` fails its assertion on any interface; the disposal
returns normally and leaves `GetNTxQueues() = 0`. -/
theorem C11_count_range_amended (create : ObjectFactory → Option (NetDeviceQueue σ κ))
    (type : TypeId) (n : Nat) (ops : List (InterfaceOp ι))
    (hops : ∀ op ∈ ops, op.isDoDispose = false) :
    ((n < 1 ∨ 65535 < n) →
      (NetDeviceQueueInterface.construct create type n :
        Except Fatal (NetDeviceQueueInterface σ κ ι)) =
          Except.error Fatal.invalidAttributeValue) ∧
    ((1 ≤ n ∧ n ≤ 65535) →
      ∃ s : NetDeviceQueueInterface σ κ ι,
        NetDeviceQueueInterface.construct create type n = Except.ok s ∧
        s.GetNTxQueues = n ∧
        (NetDeviceQueueInterface.runOps create s ops).state.GetNTxQueues = n ∧
        1 ≤ (NetDeviceQueueInterface.runOps create s ops).state.GetNTxQueues ∧
        (NetDeviceQueueInterface.runOps create s ops).state.GetNTxQueues ≤ 65535) ∧
    (∀ s : NetDeviceQueueInterface σ κ ι,
      (s.SetNTxQueues create 0).fatal = some Fatal.assertFailed ∧
      (s.SetNTxQueues create 0).state = s) ∧
    (∀ s : NetDeviceQueueInterface σ κ ι,
      s.DoDispose.fatal = none ∧ s.DoDispose.state.GetNTxQueues = 0) := by
  refine ⟨?_, ?_, fun s => ⟨rfl, rfl⟩, fun s => ⟨rfl, rfl⟩⟩
  · intro h
    have hc : NTxQueuesChecker n = false := by
      simp only [NTxQueuesChecker, decide_eq_false_iff_not]
      omega
    simp [NetDeviceQueueInterface.construct, hc]
  · intro hn
    refine ⟨_, NetDeviceQueueInterface.construct_ok create type n hn, ?_⟩
    have hlen : ({ m_txQueues := ObjectFactory.ctor.SetTypeId type
                   m_txQueuesVector :=
                     List.replicate n (create (ObjectFactory.ctor.SetTypeId type))
                   m_selectQueueCallback := some (fun _item => 0) } :
        NetDeviceQueueInterface σ κ ι).GetNTxQueues = n := by
      simp [NetDeviceQueueInterface.GetNTxQueues]
    have hrun := NetDeviceQueueInterface.runOps_count create ops _ (hlen ▸ hn.1) hops
    rw [hlen] at hrun
    exact ⟨hlen, hrun, by omega, by omega⟩

/-- C11 amended, at a concrete run: creation with type 0 and 3 queues, then a refused
`SetNTxQueues(5)`; the interface still holds 3 queues. -/
theorem C11_count_range_amended_witness :
    ∃ s : NetDeviceQueueInterface FixedCap Nat Nat,
      NetDeviceQueueInterface.construct (fun _ => some NetDeviceQueue.ctor) 0 3 = Except.ok s ∧
      s.GetNTxQueues = 3 ∧
      (NetDeviceQueueInterface.runOps (fun _ => some NetDeviceQueue.ctor) s
        [InterfaceOp.SetNTxQueues 5]).state.GetNTxQueues = 3 ∧
      1 ≤ (NetDeviceQueueInterface.runOps (fun _ => some NetDeviceQueue.ctor) s
        [InterfaceOp.SetNTxQueues 5]).state.GetNTxQueues ∧
      (NetDeviceQueueInterface.runOps (fun _ => some NetDeviceQueue.ctor) s
        [InterfaceOp.SetNTxQueues 5]).state.GetNTxQueues ≤ 65535 :=
  (C11_count_range_amended (fun _ => some NetDeviceQueue.ctor) 0 3
    [InterfaceOp.SetNTxQueues 5] (by decide)).2.1 (by decide)

/-- C12: `SetNTxQueues(n)` with `n >= 1` on an interface without queues, whose factory creates
objects of class `NetDeviceQueue` (each in the state its constructor leaves), returns normally;
afterwards `GetNTxQueues() = n` and for every `i < n` `GetTxQueue(i)` is a queue in the
constructed state: both flags false, `IsStopped()` false, no limiter attached. The factory and
the selection policy are as before. -/
theorem C12_setNTxQueues_creates (create : ObjectFactory → Option (NetDeviceQueue σ κ))
    (s : NetDeviceQueueInterface σ κ ι) (n : Nat) (hn : 1 ≤ n) (hs : s.GetNTxQueues = 0)
    (hcreate : create s.m_txQueues = some NetDeviceQueue.ctor) :
    (s.SetNTxQueues create n).fatal = none ∧
    (s.SetNTxQueues create n).state.GetNTxQueues = n ∧
    (∀ i : Nat, i < n →
      ∃ q : NetDeviceQueue σ κ,
        (s.SetNTxQueues create n).state.GetTxQueue i = Except.ok (some q) ∧
        q = NetDeviceQueue.ctor ∧
        q.m_stoppedByDevice = false ∧ q.m_stoppedByQueueLimits = false ∧
        q.IsStopped = false ∧ q.GetQueueLimits = none) ∧
    (s.SetNTxQueues create n).state.m_txQueues = s.m_txQueues ∧
    (s.SetNTxQueues create n).state.m_selectQueueCallback = s.m_selectQueueCallback := by
  have hv : s.m_txQueuesVector = [] := List.length_eq_zero.mp hs
  rw [NetDeviceQueueInterface.SetNTxQueues_empty create s n hn hv, hcreate]
  refine ⟨rfl, ?_, ?_, rfl, rfl⟩
  · simp [NetDeviceQueueInterface.GetNTxQueues]
  · intro i hi
    refine ⟨NetDeviceQueue.ctor, ?_, rfl, rfl, rfl, rfl, rfl⟩
    simp [NetDeviceQueueInterface.GetTxQueue, NS_ASSERT, hi, List.getD_eq_getElem?_getD]

/-- C12 at a concrete interface: the constructed one with type 0 set; `SetNTxQueues(2)` gives
two queues. -/
theorem C12_setNTxQueues_creates_witness :
    (((NetDeviceQueueInterface.ctor : NetDeviceQueueInterface FixedCap Nat Nat).SetTxQueuesType
      0).state.SetNTxQueues (fun _ => some NetDeviceQueue.ctor) 2).state.GetNTxQueues = 2 :=
  (C12_setNTxQueues_creates (fun _ => some NetDeviceQueue.ctor)
    ((NetDeviceQueueInterface.ctor : NetDeviceQueueInterface FixedCap Nat Nat).SetTxQueuesType
      0).state 2 (by decide) rfl rfl).2.1

/-- The loop of `NotifyNewAggregate` when a device is resolved and no entry is null. -/
theorem NetDeviceQueueInterface.notifyQueues_some (d : Device) :
    ∀ v : List (Option (NetDeviceQueue σ κ)), (∀ p ∈ v, p ≠ none) →
      NetDeviceQueueInterface.notifyQueues (some d) v =
        { state := v.map (Option.map (fun q => { q with m_device := some d }))
          fatal := none } := by
  intro v
  induction v with
  | nil => intro _; rfl
  | cons p rest ih =>
    intro hv
    have hrest : ∀ x ∈ rest, x ≠ none := fun x hx => hv x (List.mem_cons_of_mem p hx)
    cases p with
    | none => exact absurd rfl (hv none (List.mem_cons_self none rest))
    | some tx =>
      simp [NetDeviceQueueInterface.notifyQueues, NetDeviceQueue.NotifyAggregatedObject,
        NS_ABORT_MSG_IF, ih hrest]

/-- The loop of `NotifyNewAggregate` when no device is resolved: fatal at the first entry. -/
theorem NetDeviceQueueInterface.notifyQueues_none (p : Option (NetDeviceQueue σ κ))
    (rest : List (Option (NetDeviceQueue σ κ))) :
    (NetDeviceQueueInterface.notifyQueues none (p :: rest)).fatal =
      some (if p.isSome then Fatal.abortNoNetDevice else Fatal.nullDereference) := by
  cases p with
  | none => rfl
  | some tx =>
    simp [NetDeviceQueueInterface.notifyQueues, NetDeviceQueue.NotifyAggregatedObject,
      NS_ABORT_MSG_IF]

/-- C13: `NotifyNewAggregate` hands the resolved device to `NotifyAggregatedObject` of every
queue of the vector. With a device resolved (and every entry a queue) it returns normally, and
every queue is what it was with its device reference set to that device, flags included; the
other members of the interface are unchanged. With no device resolved and at least one entry
it ends fatally, in the abort of `NotifyAggregatedObject` when the first entry is a queue. -/
theorem C13_notifyNewAggregate (s : NetDeviceQueueInterface σ κ ι) :
    (∀ d : Device, (∀ p ∈ s.m_txQueuesVector, p ≠ none) →
      (s.NotifyNewAggregate (some d)).fatal = none ∧
      (s.NotifyNewAggregate (some d)).state.m_txQueuesVector =
        s.m_txQueuesVector.map (Option.map (fun q => (q.NotifyAggregatedObject (some d)).state)) ∧
      (∀ q : NetDeviceQueue σ κ,
        (q.NotifyAggregatedObject (some d)).state = { q with m_device := some d } ∧
        (q.NotifyAggregatedObject (some d)).state.m_stoppedByDevice = q.m_stoppedByDevice ∧
        (q.NotifyAggregatedObject (some d)).state.m_stoppedByQueueLimits =
          q.m_stoppedByQueueLimits) ∧
      (s.NotifyNewAggregate (some d)).state.m_txQueues = s.m_txQueues ∧
      (s.NotifyNewAggregate (some d)).state.m_selectQueueCallback = s.m_selectQueueCallback) ∧
    (1 ≤ s.GetNTxQueues → (s.NotifyNewAggregate none).fatal ≠ none) ∧
    (∀ (q : NetDeviceQueue σ κ) (rest : List (Option (NetDeviceQueue σ κ))),
      s.m_txQueuesVector = some q :: rest →
      (s.NotifyNewAggregate none).fatal = some Fatal.abortNoNetDevice) := by
  refine ⟨?_, ?_, ?_⟩
  · intro d hv
    have h := NetDeviceQueueInterface.notifyQueues_some d s.m_txQueuesVector hv
    refine ⟨?_, ?_, fun q => ⟨rfl, rfl, rfl⟩, rfl, rfl⟩
    · show (NetDeviceQueueInterface.notifyQueues (some d) s.m_txQueuesVector).fatal = none
      rw [h]
    · show (NetDeviceQueueInterface.notifyQueues (some d) s.m_txQueuesVector).state = _
      rw [h]
      rfl
  · intro hs
    cases hv : s.m_txQueuesVector with
    | nil => simp [NetDeviceQueueInterface.GetNTxQueues, hv] at hs
    | cons p rest =>
      simp [NetDeviceQueueInterface.NotifyNewAggregate, hv,
        NetDeviceQueueInterface.notifyQueues_none]
  · intro q rest hv
    simp [NetDeviceQueueInterface.NotifyNewAggregate, hv,
      NetDeviceQueueInterface.notifyQueues_none]

/-- C13 at a concrete interface of two queues, the second stopped by the device: with device
`9` resolved both queues refer to it and the second is still stopped; with none resolved the
call aborts. -/
theorem C13_notifyNewAggregate_witness :
    (({ m_txQueues := ObjectFactory.ctor,
        m_txQueuesVector := [some NetDeviceQueue.ctor, some NetDeviceQueue.ctor.Stop.1],
        m_selectQueueCallback := none } :
        NetDeviceQueueInterface FixedCap Nat Nat).NotifyNewAggregate (some 9)).state.m_txQueuesVector
      = [some { NetDeviceQueue.ctor with m_device := some 9 },
         some { NetDeviceQueue.ctor with m_device := some 9, m_stoppedByDevice := true }] ∧
    (({ m_txQueues := ObjectFactory.ctor,
        m_txQueuesVector := [some NetDeviceQueue.ctor, some NetDeviceQueue.ctor.Stop.1],
        m_selectQueueCallback := none } :
        NetDeviceQueueInterface FixedCap Nat Nat).NotifyNewAggregate none).fatal ≠ none :=
  ⟨((C13_notifyNewAggregate
      ({ m_txQueues := ObjectFactory.ctor,
         m_txQueuesVector := [some NetDeviceQueue.ctor, some NetDeviceQueue.ctor.Stop.1],
         m_selectQueueCallback := none } : NetDeviceQueueInterface FixedCap Nat Nat)).1 9
      (by simp)).2.1,
   (C13_notifyNewAggregate
      ({ m_txQueues := ObjectFactory.ctor,
         m_txQueuesVector := [some NetDeviceQueue.ctor, some NetDeviceQueue.ctor.Stop.1],
         m_selectQueueCallback := none } : NetDeviceQueueInterface FixedCap Nat Nat)).2.1
      (by decide)⟩

end InterfaceProperties

/-! ## Flags, callbacks and the limiter -/

section QueueFlowProperties

variable {σ κ : Type}

/-- C14: `ResetQueueLimits()` with no limiter attached returns the queue unchanged; with a
limiter attached the limiter is `Reset()` and every other member keeps its value (both flags,
the registered callback, the device); no callback is invoked in either case, so a queue that
was limit-stopped is still limit-stopped after the call. -/
theorem C14_resetQueueLimits_frame (L : QueueLimits σ) (run : WakeRun σ κ)
    (q : NetDeviceQueue σ κ) :
    (q.m_queueLimits = none → q.ResetQueueLimits L = (q, [])) ∧
    (∀ ql : σ, q.m_queueLimits = some ql →
      (q.ResetQueueLimits L).1 = { q with m_queueLimits := some (L.Reset ql) }) ∧
    (q.ResetQueueLimits L).1.m_stoppedByDevice = q.m_stoppedByDevice ∧
    (q.ResetQueueLimits L).1.m_stoppedByQueueLimits = q.m_stoppedByQueueLimits ∧
    (q.ResetQueueLimits L).1.m_wakeCallback = q.m_wakeCallback ∧
    (q.ResetQueueLimits L).1.m_device = q.m_device ∧
    (q.step L run QueueOp.ResetQueueLimits).2 = [] ∧
    (q.m_stoppedByQueueLimits = true →
      (q.step L run QueueOp.ResetQueueLimits).1.m_stoppedByQueueLimits = true) := by
  unfold NetDeviceQueue.step NetDeviceQueue.ResetQueueLimits
  cases hq : q.m_queueLimits with
  | none => simp
  | some ql => simp

/-- C14 at a concrete queue: limit-stopped with a fixed-cap limiter 10 bytes over its capacity;
after `ResetQueueLimits()` the limiter has its full capacity and the queue is still
limit-stopped. -/
theorem C14_resetQueueLimits_frame_witness :
    (({ m_stoppedByDevice := false, m_stoppedByQueueLimits := true,
        m_queueLimits := some { limit := 100, queued := 110, completed := 0 },
        m_wakeCallback := some 7, m_device := none } :
        NetDeviceQueue FixedCap Nat).ResetQueueLimits FixedCap.limits).1
      = { m_stoppedByDevice := false, m_stoppedByQueueLimits := true,
          m_queueLimits := some { limit := 100, queued := 0, completed := 0 },
          m_wakeCallback := some 7, m_device := none } :=
  (C14_resetQueueLimits_frame FixedCap.limits notifyOnly
    ({ m_stoppedByDevice := false, m_stoppedByQueueLimits := true,
       m_queueLimits := some { limit := 100, queued := 110, completed := 0 },
       m_wakeCallback := some 7, m_device := none } : NetDeviceQueue FixedCap Nat)).2.1
    { limit := 100, queued := 110, completed := 0 } rfl

/-- C15: with the wake callback a pure notification, `Start`, `Stop` and `Wake` leave
`stoppedByQueueLimits` and the limiter unchanged; `NotifyQueuedBytes` and
`NotifyTransmittedBytes` leave `stoppedByDevice` unchanged; `SetQueueLimits`, `SetWakeCallback`
and `ResetQueueLimits` leave both flags unchanged. So no operation changes both flags. -/
theorem C15_one_flag_per_operation (L : QueueLimits σ) (q : NetDeviceQueue σ κ)
    (op : QueueOp σ κ) :
    ((op = QueueOp.Start ∨ op = QueueOp.Stop ∨ op = QueueOp.Wake) →
      (q.step L notifyOnly op).1.m_stoppedByQueueLimits = q.m_stoppedByQueueLimits ∧
      (q.step L notifyOnly op).1.m_queueLimits = q.m_queueLimits) ∧
    ((∃ bytes, op = QueueOp.NotifyQueuedBytes bytes ∨
        op = QueueOp.NotifyTransmittedBytes bytes) →
      (q.step L notifyOnly op).1.m_stoppedByDevice = q.m_stoppedByDevice) ∧
    ((op = QueueOp.ResetQueueLimits ∨ (∃ ql, op = QueueOp.SetQueueLimits ql) ∨
        (∃ cb, op = QueueOp.SetWakeCallback cb)) →
      (q.step L notifyOnly op).1.m_stoppedByDevice = q.m_stoppedByDevice ∧
      (q.step L notifyOnly op).1.m_stoppedByQueueLimits = q.m_stoppedByQueueLimits) ∧
    ((q.step L notifyOnly op).1.m_stoppedByDevice = q.m_stoppedByDevice ∨
      (q.step L notifyOnly op).1.m_stoppedByQueueLimits = q.m_stoppedByQueueLimits) := by
  have hwake : (q.Wake notifyOnly).1 = { q with m_stoppedByDevice := false } := by
    unfold NetDeviceQueue.Wake
    cases q with
    | mk d l ql cb dev => cases d <;> cases cb <;> rfl
  have hnqb : ∀ bytes, (q.NotifyQueuedBytes L bytes).1.m_stoppedByDevice
      = q.m_stoppedByDevice := by
    intro bytes
    unfold NetDeviceQueue.NotifyQueuedBytes
    cases hq : q.m_queueLimits with
    | none => rfl
    | some ql => dsimp only; split <;> rfl
  have hntb : ∀ bytes, (q.NotifyTransmittedBytes L notifyOnly bytes).1.m_stoppedByDevice
      = q.m_stoppedByDevice := by
    intro bytes
    unfold NetDeviceQueue.NotifyTransmittedBytes
    cases hq : q.m_queueLimits with
    | none => rfl
    | some ql =>
      dsimp only
      split
      · rfl
      · split
        · rfl
        · split <;> rfl
  have hreset : (q.ResetQueueLimits L).1.m_stoppedByDevice = q.m_stoppedByDevice ∧
      (q.ResetQueueLimits L).1.m_stoppedByQueueLimits = q.m_stoppedByQueueLimits := by
    unfold NetDeviceQueue.ResetQueueLimits
    cases hq : q.m_queueLimits <;> exact ⟨rfl, rfl⟩
  refine ⟨?_, ?_, ?_, ?_⟩
  · rintro (h | h | h) <;> subst h
    · exact ⟨rfl, rfl⟩
    · exact ⟨rfl, rfl⟩
    · show (q.Wake notifyOnly).1.m_stoppedByQueueLimits = _ ∧
        (q.Wake notifyOnly).1.m_queueLimits = _
      rw [hwake]
      exact ⟨rfl, rfl⟩
  · rintro ⟨bytes, h | h⟩ <;> subst h
    · exact hnqb bytes
    · exact hntb bytes
  · rintro (h | ⟨ql, h⟩ | ⟨cb, h⟩) <;> subst h
    · exact hreset
    · exact ⟨rfl, rfl⟩
    · exact ⟨rfl, rfl⟩
  · cases op with
    | Start => exact Or.inr rfl
    | Stop => exact Or.inr rfl
    | Wake =>
      right
      show (q.Wake notifyOnly).1.m_stoppedByQueueLimits = _
      rw [hwake]
    | NotifyQueuedBytes bytes => exact Or.inl (hnqb bytes)
    | NotifyTransmittedBytes bytes => exact Or.inl (hntb bytes)
    | ResetQueueLimits => exact Or.inl hreset.1
    | SetQueueLimits ql => exact Or.inl rfl
    | SetWakeCallback cb => exact Or.inl rfl

/-- C15 at a concrete queue with both flags set and a limiter back within its capacity after
the call: `NotifyTransmittedBytes(70)` leaves `stoppedByDevice` set. -/
theorem C15_one_flag_per_operation_witness :
    (({ m_stoppedByDevice := true, m_stoppedByQueueLimits := true,
        m_queueLimits := some { limit := 100, queued := 110, completed := 0 },
        m_wakeCallback := some 7, m_device := none } :
        NetDeviceQueue FixedCap Nat).step FixedCap.limits notifyOnly
          (QueueOp.NotifyTransmittedBytes 70)).1.m_stoppedByDevice = true :=
  (C15_one_flag_per_operation FixedCap.limits
    ({ m_stoppedByDevice := true, m_stoppedByQueueLimits := true,
       m_queueLimits := some { limit := 100, queued := 110, completed := 0 },
       m_wakeCallback := some 7, m_device := none } : NetDeviceQueue FixedCap Nat)
    (QueueOp.NotifyTransmittedBytes 70)).2.1 ⟨70, Or.inr rfl⟩

/-- C16: with the callback an arbitrary function on the queue, `Wake` and
`NotifyTransmittedBytes`, when they invoke it, return the callback applied to the queue with
the flag already cleared (and the limiter already updated), and nothing is done after it. When
the callback reports `n` more bytes through `NotifyQueuedBytes` and these drive `Available()`
below 0, `stoppedByQueueLimits` is true when `NotifyTransmittedBytes` returns. -/
theorem C16_reentrant_callback (L : QueueLimits σ) (run : WakeRun σ κ)
    (q : NetDeviceQueue σ κ) (cb : κ) (hcb : q.m_wakeCallback = some cb) :
    (q.m_stoppedByDevice = true →
      q.Wake run = (run cb { q with m_stoppedByDevice := false }, [cb])) ∧
    (∀ (ql : σ) (bytes : Nat), q.m_queueLimits = some ql → bytes ≠ 0 →
      ¬ L.Available (L.Completed ql bytes) < 0 → q.m_stoppedByQueueLimits = true →
      q.NotifyTransmittedBytes L run bytes =
        (run cb { q with m_queueLimits := some (L.Completed ql bytes),
                         m_stoppedByQueueLimits := false }, [cb]) ∧
      (∀ n : Nat, L.Available (L.Queued (L.Completed ql bytes) n) < 0 →
        (q.NotifyTransmittedBytes L (enqueueOnWake L n) bytes).1.m_stoppedByQueueLimits
          = true)) := by
  have hntb : ∀ (r : WakeRun σ κ) (ql : σ) (bytes : Nat), q.m_queueLimits = some ql →
      bytes ≠ 0 → ¬ L.Available (L.Completed ql bytes) < 0 →
      q.m_stoppedByQueueLimits = true →
      q.NotifyTransmittedBytes L r bytes =
        (r cb { q with m_queueLimits := some (L.Completed ql bytes),
                       m_stoppedByQueueLimits := false }, [cb]) := by
    intro r ql bytes hq hb hav hl
    unfold NetDeviceQueue.NotifyTransmittedBytes
    simp [hq, hb, hav, hl, hcb]
  refine ⟨?_, ?_⟩
  · intro hd
    unfold NetDeviceQueue.Wake
    simp [hd, hcb]
  · intro ql bytes hq hb hav hl
    refine ⟨hntb run ql bytes hq hb hav hl, ?_⟩
    intro n hn
    rw [hntb (enqueueOnWake L n) ql bytes hq hb hav hl]
    have hge : ¬ L.Available (L.Queued (L.Completed ql bytes) n) ≥ 0 := not_le.mpr hn
    simp [enqueueOnWake, NetDeviceQueue.NotifyQueuedBytes, hge]

/-- C16 at a concrete queue: limit-stopped, capacity 100 with 110 bytes queued, callback `7`
registered; `NotifyTransmittedBytes(70)` brings `Available()` to 60 and invokes the callback,
which reports 80 more bytes; on return the queue is limit-stopped. -/
theorem C16_reentrant_callback_witness :
    (({ m_stoppedByDevice := false, m_stoppedByQueueLimits := true,
        m_queueLimits := some { limit := 100, queued := 110, completed := 0 },
        m_wakeCallback := some 7, m_device := none } :
        NetDeviceQueue FixedCap Nat).NotifyTransmittedBytes FixedCap.limits
          (enqueueOnWake FixedCap.limits 80) 70).1.m_stoppedByQueueLimits = true :=
  ((C16_reentrant_callback FixedCap.limits notifyOnly
    ({ m_stoppedByDevice := false, m_stoppedByQueueLimits := true,
       m_queueLimits := some { limit := 100, queued := 110, completed := 0 },
       m_wakeCallback := some 7, m_device := none } : NetDeviceQueue FixedCap Nat) 7 rfl).2
    { limit := 100, queued := 110, completed := 0 } 70 rfl (by decide) (by decide) rfl).2
    80 (by decide)

/-- C17: the state reached from construction by registering callback `7`, attaching a fixed-cap
limiter of capacity 100, reporting 110 queued bytes and `Stop()` has both flags set. There
`Wake()` invokes the callback although `IsStopped()` is still true afterwards, and
`NotifyTransmittedBytes(70)`, which brings the limiter back to `Available() = 60`, invokes the
callback although `stoppedByDevice`, hence `IsStopped()`, is still true afterwards. -/
theorem C17_callback_per_flag :
    let q : NetDeviceQueue FixedCap Nat := (NetDeviceQueue.runOps FixedCap.limits notifyOnly
      (NetDeviceQueue.ctor : NetDeviceQueue FixedCap Nat)
      [QueueOp.SetWakeCallback (some 7), QueueOp.SetQueueLimits (some (FixedCap.fresh 100)),
        QueueOp.NotifyQueuedBytes 110, QueueOp.Stop]).1
    (q.m_stoppedByDevice = true ∧ q.m_stoppedByQueueLimits = true ∧
      q.m_wakeCallback = some 7) ∧
    ((q.Wake notifyOnly).2 = [7] ∧ (q.Wake notifyOnly).1.m_stoppedByDevice = false ∧
      (q.Wake notifyOnly).1.IsStopped = true) ∧
    ((q.NotifyTransmittedBytes FixedCap.limits notifyOnly 70).2 = [7] ∧
      (q.NotifyTransmittedBytes FixedCap.limits notifyOnly 70).1.m_queueLimits.map
        FixedCap.limits.Available = some 60 ∧
      (q.NotifyTransmittedBytes FixedCap.limits notifyOnly 70).1.m_stoppedByQueueLimits
        = false ∧
      (q.NotifyTransmittedBytes FixedCap.limits notifyOnly 70).1.m_stoppedByDevice = true ∧
      (q.NotifyTransmittedBytes FixedCap.limits notifyOnly 70).1.IsStopped = true) := by
  refine ⟨⟨rfl, rfl, rfl⟩, ⟨rfl, rfl, rfl⟩, ⟨rfl, rfl, rfl, rfl, rfl⟩⟩

/-- One call, callback as a pure notification: an invocation is paid for by a flag that the
call clears, and only `Stop` and `NotifyQueuedBytes` can set a flag. -/
theorem NetDeviceQueue.step_flagsSet (L : QueueLimits σ) (q : NetDeviceQueue σ κ)
    (op : QueueOp σ κ) :
    (q.step L notifyOnly op).2.length + (q.step L notifyOnly op).1.flagsSet ≤
      q.flagsSet + (if op.isStop then 1 else 0) + (if op.isNotifyQueuedBytes then 1 else 0) := by
  cases q with
  | mk d l ql cb dev =>
    cases op with
    | Start => cases d <;> cases l <;> simp [NetDeviceQueue.step, NetDeviceQueue.Start,
        NetDeviceQueue.flagsSet, QueueOp.isStop, QueueOp.isNotifyQueuedBytes]
    | Stop => cases d <;> cases l <;> simp [NetDeviceQueue.step, NetDeviceQueue.Stop,
        NetDeviceQueue.flagsSet, QueueOp.isStop, QueueOp.isNotifyQueuedBytes]
    | Wake => cases d <;> cases l <;> cases cb <;> simp [NetDeviceQueue.step,
        NetDeviceQueue.Wake, notifyOnly, NetDeviceQueue.flagsSet, QueueOp.isStop,
        QueueOp.isNotifyQueuedBytes]
    | NotifyQueuedBytes bytes =>
      cases ql with
      | none => simp [NetDeviceQueue.step, NetDeviceQueue.NotifyQueuedBytes,
          QueueOp.isStop, QueueOp.isNotifyQueuedBytes]
      | some x =>
        by_cases hav : L.Available (L.Queued x bytes) ≥ 0 <;> cases d <;> cases l <;>
          simp [NetDeviceQueue.step, NetDeviceQueue.NotifyQueuedBytes, hav,
            NetDeviceQueue.flagsSet, QueueOp.isStop, QueueOp.isNotifyQueuedBytes]
    | NotifyTransmittedBytes bytes =>
      cases ql with
      | none => simp [NetDeviceQueue.step, NetDeviceQueue.NotifyTransmittedBytes,
          QueueOp.isStop, QueueOp.isNotifyQueuedBytes]
      | some x =>
        by_cases hb : bytes = 0
        · simp [NetDeviceQueue.step, NetDeviceQueue.NotifyTransmittedBytes, hb,
            QueueOp.isStop, QueueOp.isNotifyQueuedBytes]
        · by_cases hav : L.Available (L.Completed x bytes) < 0 <;> cases d <;> cases l <;>
            cases cb <;>
            simp [NetDeviceQueue.step, NetDeviceQueue.NotifyTransmittedBytes, hb, hav,
              notifyOnly, NetDeviceQueue.flagsSet, QueueOp.isStop, QueueOp.isNotifyQueuedBytes]
    | ResetQueueLimits =>
      cases ql <;> simp [NetDeviceQueue.step, NetDeviceQueue.ResetQueueLimits,
        NetDeviceQueue.flagsSet, QueueOp.isStop, QueueOp.isNotifyQueuedBytes]
    | SetQueueLimits y => simp [NetDeviceQueue.step, NetDeviceQueue.SetQueueLimits,
        NetDeviceQueue.flagsSet, QueueOp.isStop, QueueOp.isNotifyQueuedBytes]
    | SetWakeCallback y => simp [NetDeviceQueue.step, NetDeviceQueue.SetWakeCallback,
        NetDeviceQueue.flagsSet, QueueOp.isStop, QueueOp.isNotifyQueuedBytes]

/-- A sequence of calls, callback as a pure notification: the invocations plus the flags left
set are bounded by the flags set at the start plus the `Stop` and `NotifyQueuedBytes` calls. -/
theorem NetDeviceQueue.runOps_flagsSet (L : QueueLimits σ) (ops : List (QueueOp σ κ)) :
    ∀ q : NetDeviceQueue σ κ,
      (NetDeviceQueue.runOps L notifyOnly q ops).2.length +
          (NetDeviceQueue.runOps L notifyOnly q ops).1.flagsSet ≤
        q.flagsSet + ops.countP QueueOp.isStop + ops.countP QueueOp.isNotifyQueuedBytes := by
  induction ops with
  | nil => intro q; simp [NetDeviceQueue.runOps]
  | cons op ops ih =>
    intro q
    have h1 := NetDeviceQueue.step_flagsSet L q op
    have h2 := ih (q.step L notifyOnly op).1
    simp only [NetDeviceQueue.runOps, List.length_append, List.countP_cons]
    omega

/-- One call up to the invocation: at most one callback is invoked. -/
theorem NetDeviceQueue.step_own_trace_length (L : QueueLimits σ) (q : NetDeviceQueue σ κ)
    (op : QueueOp σ κ) : (q.step L notifyOnly op).2.length ≤ 1 := by
  cases q with
  | mk d l ql cb dev =>
    cases op with
    | Start => simp [NetDeviceQueue.step, NetDeviceQueue.Start]
    | Stop => simp [NetDeviceQueue.step, NetDeviceQueue.Stop]
    | Wake => cases d <;> cases cb <;> simp [NetDeviceQueue.step, NetDeviceQueue.Wake]
    | NotifyQueuedBytes bytes =>
      cases ql with
      | none => simp [NetDeviceQueue.step, NetDeviceQueue.NotifyQueuedBytes]
      | some x =>
        by_cases hav : L.Available (L.Queued x bytes) ≥ 0 <;>
          simp [NetDeviceQueue.step, NetDeviceQueue.NotifyQueuedBytes, hav]
    | NotifyTransmittedBytes bytes =>
      cases ql with
      | none => simp [NetDeviceQueue.step, NetDeviceQueue.NotifyTransmittedBytes]
      | some x =>
        by_cases hb : bytes = 0
        · simp [NetDeviceQueue.step, NetDeviceQueue.NotifyTransmittedBytes, hb]
        · by_cases hav : L.Available (L.Completed x bytes) < 0 <;> cases l <;> cases cb <;>
            simp [NetDeviceQueue.step, NetDeviceQueue.NotifyTransmittedBytes, hb, hav]
    | ResetQueueLimits =>
      cases ql <;> simp [NetDeviceQueue.step, NetDeviceQueue.ResetQueueLimits]
    | SetQueueLimits y => simp [NetDeviceQueue.step, NetDeviceQueue.SetQueueLimits]
    | SetWakeCallback y => simp [NetDeviceQueue.step, NetDeviceQueue.SetWakeCallback]

/-- One call up to the invocation: a callback is invoked only when the call has changed
`stoppedByDevice` or `stoppedByQueueLimits` from true to false. -/
theorem NetDeviceQueue.step_own_edge (L : QueueLimits σ) (q : NetDeviceQueue σ κ)
    (op : QueueOp σ κ) (h : (q.step L notifyOnly op).2 ≠ []) :
    (q.m_stoppedByDevice = true ∧ (q.step L notifyOnly op).1.m_stoppedByDevice = false) ∨
    (q.m_stoppedByQueueLimits = true ∧
      (q.step L notifyOnly op).1.m_stoppedByQueueLimits = false) := by
  revert h
  cases q with
  | mk d l ql cb dev =>
    cases op with
    | Start => simp [NetDeviceQueue.step, NetDeviceQueue.Start]
    | Stop => simp [NetDeviceQueue.step, NetDeviceQueue.Stop]
    | Wake =>
      cases d <;> cases cb <;> simp [NetDeviceQueue.step, NetDeviceQueue.Wake, notifyOnly]
    | NotifyQueuedBytes bytes =>
      cases ql with
      | none => simp [NetDeviceQueue.step, NetDeviceQueue.NotifyQueuedBytes]
      | some x =>
        by_cases hav : L.Available (L.Queued x bytes) ≥ 0 <;>
          simp [NetDeviceQueue.step, NetDeviceQueue.NotifyQueuedBytes, hav]
    | NotifyTransmittedBytes bytes =>
      cases ql with
      | none => simp [NetDeviceQueue.step, NetDeviceQueue.NotifyTransmittedBytes]
      | some x =>
        by_cases hb : bytes = 0
        · simp [NetDeviceQueue.step, NetDeviceQueue.NotifyTransmittedBytes, hb]
        · by_cases hav : L.Available (L.Completed x bytes) < 0 <;> cases l <;> cases cb <;>
            simp [NetDeviceQueue.step, NetDeviceQueue.NotifyTransmittedBytes, hb, hav,
              notifyOnly]
    | ResetQueueLimits =>
      cases ql <;> simp [NetDeviceQueue.step, NetDeviceQueue.ResetQueueLimits]
    | SetQueueLimits y => simp [NetDeviceQueue.step, NetDeviceQueue.SetQueueLimits]
    | SetWakeCallback y => simp [NetDeviceQueue.step, NetDeviceQueue.SetWakeCallback]

/-- Whatever an invoked callback does, one call is its own writes followed, when it invokes a
callback, by that callback on the queue so written, and by nothing more. -/
theorem NetDeviceQueue.step_run_after_own (L : QueueLimits σ) (run : WakeRun σ κ)
    (q : NetDeviceQueue σ κ) (op : QueueOp σ κ) :
    ((q.step L notifyOnly op).2 = [] → q.step L run op = q.step L notifyOnly op) ∧
    (∀ (cb : κ) (rest : List κ), (q.step L notifyOnly op).2 = cb :: rest →
      q.step L run op = (run cb (q.step L notifyOnly op).1, [cb])) := by
  cases q with
  | mk d l ql c dev =>
    cases op with
    | Start => simp [NetDeviceQueue.step, NetDeviceQueue.Start]
    | Stop => simp [NetDeviceQueue.step, NetDeviceQueue.Stop]
    | Wake =>
      cases d <;> cases c <;> simp [NetDeviceQueue.step, NetDeviceQueue.Wake, notifyOnly]
    | NotifyQueuedBytes bytes =>
      cases ql with
      | none => simp [NetDeviceQueue.step, NetDeviceQueue.NotifyQueuedBytes]
      | some x =>
        by_cases hav : L.Available (L.Queued x bytes) ≥ 0 <;>
          simp [NetDeviceQueue.step, NetDeviceQueue.NotifyQueuedBytes, hav]
    | NotifyTransmittedBytes bytes =>
      cases ql with
      | none => simp [NetDeviceQueue.step, NetDeviceQueue.NotifyTransmittedBytes]
      | some x =>
        by_cases hb : bytes = 0
        · simp [NetDeviceQueue.step, NetDeviceQueue.NotifyTransmittedBytes, hb]
        · by_cases hav : L.Available (L.Completed x bytes) < 0 <;> cases l <;> cases c <;>
            simp [NetDeviceQueue.step, NetDeviceQueue.NotifyTransmittedBytes, hb, hav,
              notifyOnly]
    | ResetQueueLimits =>
      cases ql <;> simp [NetDeviceQueue.step, NetDeviceQueue.ResetQueueLimits]
    | SetQueueLimits y => simp [NetDeviceQueue.step, NetDeviceQueue.SetQueueLimits]
    | SetWakeCallback y => simp [NetDeviceQueue.step, NetDeviceQueue.SetWakeCallback]

/-- A sequence of calls made in two parts. -/
theorem NetDeviceQueue.runOps_append (L : QueueLimits σ) (run : WakeRun σ κ)
    (a b : List (QueueOp σ κ)) :
    ∀ q : NetDeviceQueue σ κ,
      NetDeviceQueue.runOps L run q (a ++ b) =
        ((NetDeviceQueue.runOps L run (NetDeviceQueue.runOps L run q a).1 b).1,
          (NetDeviceQueue.runOps L run q a).2 ++
            (NetDeviceQueue.runOps L run (NetDeviceQueue.runOps L run q a).1 b).2) := by
  induction a with
  | nil => intro q; simp [NetDeviceQueue.runOps]
  | cons op a ih =>
    intro q
    have h := ih (q.step L run op).1
    rw [List.cons_append]
    simp only [NetDeviceQueue.runOps, List.append_assoc]
    rw [h]

/-- A run with callbacks that call back is the run, with the callback a pure notification, of
the calls it lists: if that holds of every callback body, it holds of the run. -/
theorem NetDeviceQueue.runNested_flat (L : QueueLimits σ)
    (body : κ → NetDeviceQueue σ κ → NestedRun σ κ)
    (hbody : ∀ (cb : κ) (q : NetDeviceQueue σ κ),
      NetDeviceQueue.runOps L notifyOnly q (body cb q).calls =
        ((body cb q).queue, (body cb q).invoked))
    (ops : List (QueueOp σ κ)) :
    ∀ q : NetDeviceQueue σ κ,
      NetDeviceQueue.runOps L notifyOnly q (NetDeviceQueue.runNested L body q ops).calls =
        ((NetDeviceQueue.runNested L body q ops).queue,
          (NetDeviceQueue.runNested L body q ops).invoked) := by
  induction ops with
  | nil => intro q; rfl
  | cons op ops ih =>
    intro q
    have hlen := NetDeviceQueue.step_own_trace_length L q op
    cases htr : (q.step L notifyOnly op).2 with
    | nil =>
      have h1 := ih (q.step L notifyOnly op).1
      simp only [NetDeviceQueue.runNested, NetDeviceQueue.runOps, htr, h1, List.nil_append]
    | cons cb rest =>
      have hrest : rest = [] := by
        rw [htr, List.length_cons] at hlen
        exact List.length_eq_zero.mp (by omega)
      have hb := hbody cb (q.step L notifyOnly op).1
      have h1 := ih (body cb (q.step L notifyOnly op).1).queue
      simp only [NetDeviceQueue.runNested, NetDeviceQueue.runOps, htr, hrest,
        NetDeviceQueue.runOps_append, hb, h1, List.cons_append, List.nil_append]

/-- The body of a callback that calls back, at any nesting depth, is the run, with the callback
a pure notification, of the calls it lists. -/
theorem NetDeviceQueue.callbackBody_flat (L : QueueLimits σ)
    (script : κ → NetDeviceQueue σ κ → List (QueueOp σ κ)) (depth : Nat) :
    ∀ (cb : κ) (q : NetDeviceQueue σ κ),
      NetDeviceQueue.runOps L notifyOnly q
          (NetDeviceQueue.callbackBody L script depth cb q).calls =
        ((NetDeviceQueue.callbackBody L script depth cb q).queue,
          (NetDeviceQueue.callbackBody L script depth cb q).invoked) := by
  induction depth with
  | zero => intro cb q; rfl
  | succ d ih =>
    intro cb q
    exact NetDeviceQueue.runNested_flat L (NetDeviceQueue.callbackBody L script d) ih
      (script cb q) q

/-- A run with callbacks that call back reaches the queue that `runOps` reaches when the
callback's effect on the queue is that of its body; the invocations `runOps` lists are among
its invocations, and the calls of the sequence are among its calls, in the same order. -/
theorem NetDeviceQueue.runNested_runOps (L : QueueLimits σ)
    (body : κ → NetDeviceQueue σ κ → NestedRun σ κ) (ops : List (QueueOp σ κ)) :
    ∀ q : NetDeviceQueue σ κ,
      (NetDeviceQueue.runNested L body q ops).queue =
        (NetDeviceQueue.runOps L (fun cb q1 => (body cb q1).queue) q ops).1 ∧
      (NetDeviceQueue.runOps L (fun cb q1 => (body cb q1).queue) q ops).2.Sublist
        (NetDeviceQueue.runNested L body q ops).invoked ∧
      ops.Sublist (NetDeviceQueue.runNested L body q ops).calls := by
  induction ops with
  | nil => intro q; exact ⟨rfl, List.Sublist.refl _, List.Sublist.refl _⟩
  | cons op ops ih =>
    intro q
    have hs := NetDeviceQueue.step_run_after_own L (fun cb q1 => (body cb q1).queue) q op
    cases htr : (q.step L notifyOnly op).2 with
    | nil =>
      have h1 := ih (q.step L notifyOnly op).1
      simp only [NetDeviceQueue.runNested, NetDeviceQueue.runOps, htr, hs.1 htr,
        List.nil_append]
      exact ⟨h1.1, h1.2.1, List.cons_sublist_cons.mpr h1.2.2⟩
    | cons cb rest =>
      have h1 := ih (body cb (q.step L notifyOnly op).1).queue
      simp only [NetDeviceQueue.runNested, NetDeviceQueue.runOps, htr, hs.2 cb rest htr,
        List.singleton_append]
      exact ⟨h1.1,
        List.cons_sublist_cons.mpr (List.Sublist.trans h1.2.1 (List.sublist_append_right _ _)),
        List.cons_sublist_cons.mpr (List.Sublist.trans h1.2.2 (List.sublist_append_right _ _))⟩

/-- With a callback that makes no call on the queue, the calls of the run are the calls of the
sequence. -/
theorem NetDeviceQueue.runNested_no_script (L : QueueLimits σ) (depth : Nat)
    (ops : List (QueueOp σ κ)) :
    ∀ q : NetDeviceQueue σ κ,
      (NetDeviceQueue.runNested L (NetDeviceQueue.callbackBody L (fun _ _ => []) depth) q
          ops).calls = ops := by
  have hbody : ∀ (cb : κ) (q : NetDeviceQueue σ κ),
      NetDeviceQueue.callbackBody L (fun _ _ => []) depth cb q =
        { queue := q, invoked := [], calls := [] } := by
    intro cb q
    cases depth <;> rfl
  induction ops with
  | nil => intro q; rfl
  | cons op ops ih =>
    intro q
    cases htr : (q.step L notifyOnly op).2 with
    | nil =>
      simp only [NetDeviceQueue.runNested, htr, ih]
    | cons cb rest =>
      simp only [NetDeviceQueue.runNested, htr, hbody, ih, List.nil_append]

/-- A callback whose body is one `NotifyQueuedBytes(n)` call acts on the queue as
`enqueueOnWake`. -/
theorem NetDeviceQueue.callbackBody_enqueue (L : QueueLimits σ) (n depth : Nat) (cb : κ)
    (q : NetDeviceQueue σ κ) :
    (NetDeviceQueue.callbackBody L (fun _ _ => [QueueOp.NotifyQueuedBytes n]) (depth + 1) cb
      q).queue = enqueueOnWake L n cb q := by
  have htr : (q.step L notifyOnly (QueueOp.NotifyQueuedBytes n)).2 = [] := by
    simp only [NetDeviceQueue.step, NetDeviceQueue.NotifyQueuedBytes]
    cases q.m_queueLimits with
    | none => rfl
    | some x => dsimp only; split <;> rfl
  simp only [NetDeviceQueue.callbackBody, NetDeviceQueue.runNested, htr, enqueueOnWake]
  rfl

/-- C18, as stated, fails: on a new queue callback `7` is registered and a fixed-cap limiter of
capacity 100 attached; the callback reports 10 more bytes through `NotifyQueuedBytes` each time
it is invoked. After `NotifyQueuedBytes(110)`, each of four `NotifyTransmittedBytes(10)` calls
brings `Available()` back to 0 and invokes the callback, which drives it to -10 again: four
invocations, while the sequence holds no `Stop()` and one `NotifyQueuedBytes` call. -/
theorem C18_edge_triggered_counterexample :
    (NetDeviceQueue.runOps FixedCap.limits (enqueueOnWake FixedCap.limits 10)
      (NetDeviceQueue.ctor : NetDeviceQueue FixedCap Nat)
      [QueueOp.SetWakeCallback (some 7), QueueOp.SetQueueLimits (some (FixedCap.fresh 100)),
        QueueOp.NotifyQueuedBytes 110, QueueOp.NotifyTransmittedBytes 10,
        QueueOp.NotifyTransmittedBytes 10, QueueOp.NotifyTransmittedBytes 10,
        QueueOp.NotifyTransmittedBytes 10]).2 = [7, 7, 7, 7] ∧
    (List.countP QueueOp.isStop
        ([QueueOp.SetWakeCallback (some 7), QueueOp.SetQueueLimits (some (FixedCap.fresh 100)),
          QueueOp.NotifyQueuedBytes 110, QueueOp.NotifyTransmittedBytes 10,
          QueueOp.NotifyTransmittedBytes 10, QueueOp.NotifyTransmittedBytes 10,
          QueueOp.NotifyTransmittedBytes 10] : List (QueueOp FixedCap Nat)) +
      List.countP QueueOp.isNotifyQueuedBytes
        ([QueueOp.SetWakeCallback (some 7), QueueOp.SetQueueLimits (some (FixedCap.fresh 100)),
          QueueOp.NotifyQueuedBytes 110, QueueOp.NotifyTransmittedBytes 10,
          QueueOp.NotifyTransmittedBytes 10, QueueOp.NotifyTransmittedBytes 10,
          QueueOp.NotifyTransmittedBytes 10] : List (QueueOp FixedCap Nat)) = 1) ∧
    ¬ ((NetDeviceQueue.runOps FixedCap.limits (enqueueOnWake FixedCap.limits 10)
        (NetDeviceQueue.ctor : NetDeviceQueue FixedCap Nat)
        [QueueOp.SetWakeCallback (some 7), QueueOp.SetQueueLimits (some (FixedCap.fresh 100)),
          QueueOp.NotifyQueuedBytes 110, QueueOp.NotifyTransmittedBytes 10,
          QueueOp.NotifyTransmittedBytes 10, QueueOp.NotifyTransmittedBytes 10,
          QueueOp.NotifyTransmittedBytes 10]).2.length ≤
      List.countP QueueOp.isStop
        ([QueueOp.SetWakeCallback (some 7), QueueOp.SetQueueLimits (some (FixedCap.fresh 100)),
          QueueOp.NotifyQueuedBytes 110, QueueOp.NotifyTransmittedBytes 10,
          QueueOp.NotifyTransmittedBytes 10, QueueOp.NotifyTransmittedBytes 10,
          QueueOp.NotifyTransmittedBytes 10] : List (QueueOp FixedCap Nat)) +
      List.countP QueueOp.isNotifyQueuedBytes
        ([QueueOp.SetWakeCallback (some 7), QueueOp.SetQueueLimits (some (FixedCap.fresh 100)),
          QueueOp.NotifyQueuedBytes 110, QueueOp.NotifyTransmittedBytes 10,
          QueueOp.NotifyTransmittedBytes 10, QueueOp.NotifyTransmittedBytes 10,
          QueueOp.NotifyTransmittedBytes 10] : List (QueueOp FixedCap Nat))) := by
  refine ⟨rfl, rfl, ?_⟩
  decide

/-- C18, amended. Whatever the callback does, one operation itself invokes it at most once, and
only after the operation has changed `stoppedByDevice` or `stoppedByQueueLimits` from true to
false; the operation then returns the queue the callback leaves, and without an invocation it
returns what it returns with the callback a pure notification.
When the callback makes no call on the queue, over any sequence of operations on a freshly
constructed queue the number of invocations is at most the number of `Stop()` calls plus the
number of `NotifyQueuedBytes` calls in the sequence.
When the callback calls back into the queue (invoked as `cb` on the queue `q1` it makes the calls
`script cb q1`, nested up to `depth`), the run is the run, with the callback a pure notification,
of the sequence with the callbacks' calls written into it where they are made; the number of
invocations, nested ones included, is at most the number of `Stop()` calls plus the number of
`NotifyQueuedBytes` calls in that sequence. The run reaches the queue that `runOps` reaches with
the callback's body as its effect, the invocations `runOps` lists are among its invocations and
so within the same bound, the calls of the given sequence are among its calls, and they are all
its calls when the script is empty. -/
theorem C18_edge_triggered_amended (L : QueueLimits σ) (run : WakeRun σ κ)
    (script : κ → NetDeviceQueue σ κ → List (QueueOp σ κ)) (depth : Nat)
    (q : NetDeviceQueue σ κ) (op : QueueOp σ κ) (ops : List (QueueOp σ κ)) :
    ((q.step L run op).2.length ≤ 1 ∧
      ((q.step L run op).2 ≠ [] →
        (q.m_stoppedByDevice = true ∧ (q.step L notifyOnly op).1.m_stoppedByDevice = false) ∨
        (q.m_stoppedByQueueLimits = true ∧
          (q.step L notifyOnly op).1.m_stoppedByQueueLimits = false)) ∧
      (∀ cb : κ, (q.step L run op).2 = [cb] →
        (q.step L run op).1 = run cb (q.step L notifyOnly op).1) ∧
      ((q.step L run op).2 = [] → q.step L run op = q.step L notifyOnly op)) ∧
    ((NetDeviceQueue.runOps L notifyOnly NetDeviceQueue.ctor ops).2.length ≤
      ops.countP QueueOp.isStop + ops.countP QueueOp.isNotifyQueuedBytes) ∧
    (NetDeviceQueue.runOps L notifyOnly NetDeviceQueue.ctor
          (NetDeviceQueue.runNested L (NetDeviceQueue.callbackBody L script depth)
            NetDeviceQueue.ctor ops).calls =
        ((NetDeviceQueue.runNested L (NetDeviceQueue.callbackBody L script depth)
            NetDeviceQueue.ctor ops).queue,
          (NetDeviceQueue.runNested L (NetDeviceQueue.callbackBody L script depth)
            NetDeviceQueue.ctor ops).invoked) ∧
      (NetDeviceQueue.runNested L (NetDeviceQueue.callbackBody L script depth)
          NetDeviceQueue.ctor ops).invoked.length ≤
        (NetDeviceQueue.runNested L (NetDeviceQueue.callbackBody L script depth)
            NetDeviceQueue.ctor ops).calls.countP QueueOp.isStop +
          (NetDeviceQueue.runNested L (NetDeviceQueue.callbackBody L script depth)
            NetDeviceQueue.ctor ops).calls.countP QueueOp.isNotifyQueuedBytes ∧
      (NetDeviceQueue.runNested L (NetDeviceQueue.callbackBody L script depth)
          NetDeviceQueue.ctor ops).queue =
        (NetDeviceQueue.runOps L
          (fun cb q1 => (NetDeviceQueue.callbackBody L script depth cb q1).queue)
          NetDeviceQueue.ctor ops).1 ∧
      (NetDeviceQueue.runOps L
          (fun cb q1 => (NetDeviceQueue.callbackBody L script depth cb q1).queue)
          NetDeviceQueue.ctor ops).2.Sublist
        (NetDeviceQueue.runNested L (NetDeviceQueue.callbackBody L script depth)
          NetDeviceQueue.ctor ops).invoked ∧
      (NetDeviceQueue.runOps L
          (fun cb q1 => (NetDeviceQueue.callbackBody L script depth cb q1).queue)
          NetDeviceQueue.ctor ops).2.length ≤
        (NetDeviceQueue.runNested L (NetDeviceQueue.callbackBody L script depth)
            NetDeviceQueue.ctor ops).calls.countP QueueOp.isStop +
          (NetDeviceQueue.runNested L (NetDeviceQueue.callbackBody L script depth)
            NetDeviceQueue.ctor ops).calls.countP QueueOp.isNotifyQueuedBytes ∧
      ops.Sublist
        (NetDeviceQueue.runNested L (NetDeviceQueue.callbackBody L script depth)
          NetDeviceQueue.ctor ops).calls ∧
      (NetDeviceQueue.runNested L (NetDeviceQueue.callbackBody L (fun _ _ => []) depth)
          NetDeviceQueue.ctor ops).calls = ops) := by
  have hs := NetDeviceQueue.step_run_after_own L run q op
  have hlen := NetDeviceQueue.step_own_trace_length L q op
  have htrace : (q.step L run op).2 = (q.step L notifyOnly op).2 := by
    cases htr : (q.step L notifyOnly op).2 with
    | nil => rw [hs.1 htr, htr]
    | cons cb rest =>
      have hrest : rest = [] := by
        rw [htr, List.length_cons] at hlen
        exact List.length_eq_zero.mp (by omega)
      rw [hs.2 cb rest htr, hrest]
  have h0 : (NetDeviceQueue.ctor : NetDeviceQueue σ κ).flagsSet = 0 := rfl
  have hquiet := NetDeviceQueue.runOps_flagsSet L ops (NetDeviceQueue.ctor : NetDeviceQueue σ κ)
  have hflat := NetDeviceQueue.runNested_flat L (NetDeviceQueue.callbackBody L script depth)
    (NetDeviceQueue.callbackBody_flat L script depth) ops NetDeviceQueue.ctor
  have hpaid := NetDeviceQueue.runOps_flagsSet L
    (NetDeviceQueue.runNested L (NetDeviceQueue.callbackBody L script depth)
      NetDeviceQueue.ctor ops).calls (NetDeviceQueue.ctor : NetDeviceQueue σ κ)
  rw [hflat] at hpaid
  have hinv : (NetDeviceQueue.runNested L (NetDeviceQueue.callbackBody L script depth)
      NetDeviceQueue.ctor ops).invoked.length ≤
      (NetDeviceQueue.runNested L (NetDeviceQueue.callbackBody L script depth)
          NetDeviceQueue.ctor ops).calls.countP QueueOp.isStop +
        (NetDeviceQueue.runNested L (NetDeviceQueue.callbackBody L script depth)
          NetDeviceQueue.ctor ops).calls.countP QueueOp.isNotifyQueuedBytes := by
    simp only at hpaid
    omega
  have hlink := NetDeviceQueue.runNested_runOps L (NetDeviceQueue.callbackBody L script depth)
    ops NetDeviceQueue.ctor
  refine ⟨⟨?_, ?_, ?_, ?_⟩, by omega, hflat, hinv, hlink.1, hlink.2.1,
    Nat.le_trans hlink.2.1.length_le hinv, hlink.2.2,
    NetDeviceQueue.runNested_no_script L depth ops NetDeviceQueue.ctor⟩
  · rw [htrace]
    exact hlen
  · intro hne
    rw [htrace] at hne
    exact NetDeviceQueue.step_own_edge L q op hne
  · intro cb hcb
    rw [htrace] at hcb
    rw [hs.2 cb [] hcb]
  · intro hnil
    rw [htrace] at hnil
    exact hs.1 hnil

/-- C18 amended, on the run of the counterexample, with the callback's `NotifyQueuedBytes(10)`
calls written into the sequence: four invocations, five `NotifyQueuedBytes` calls, and the queue
is the one `runOps` reaches with `enqueueOnWake` as the callback. -/
theorem C18_edge_triggered_amended_witness :
    (NetDeviceQueue.runNested FixedCap.limits
        (NetDeviceQueue.callbackBody FixedCap.limits
          (fun _ _ => [QueueOp.NotifyQueuedBytes 10]) 1)
        (NetDeviceQueue.ctor : NetDeviceQueue FixedCap Nat)
        [QueueOp.SetWakeCallback (some 7), QueueOp.SetQueueLimits (some (FixedCap.fresh 100)),
          QueueOp.NotifyQueuedBytes 110, QueueOp.NotifyTransmittedBytes 10,
          QueueOp.NotifyTransmittedBytes 10, QueueOp.NotifyTransmittedBytes 10,
          QueueOp.NotifyTransmittedBytes 10]).invoked.length ≤
      (NetDeviceQueue.runNested FixedCap.limits
          (NetDeviceQueue.callbackBody FixedCap.limits
            (fun _ _ => [QueueOp.NotifyQueuedBytes 10]) 1)
          (NetDeviceQueue.ctor : NetDeviceQueue FixedCap Nat)
          [QueueOp.SetWakeCallback (some 7), QueueOp.SetQueueLimits (some (FixedCap.fresh 100)),
            QueueOp.NotifyQueuedBytes 110, QueueOp.NotifyTransmittedBytes 10,
            QueueOp.NotifyTransmittedBytes 10, QueueOp.NotifyTransmittedBytes 10,
            QueueOp.NotifyTransmittedBytes 10]).calls.countP QueueOp.isStop +
        (NetDeviceQueue.runNested FixedCap.limits
          (NetDeviceQueue.callbackBody FixedCap.limits
            (fun _ _ => [QueueOp.NotifyQueuedBytes 10]) 1)
          (NetDeviceQueue.ctor : NetDeviceQueue FixedCap Nat)
          [QueueOp.SetWakeCallback (some 7), QueueOp.SetQueueLimits (some (FixedCap.fresh 100)),
            QueueOp.NotifyQueuedBytes 110, QueueOp.NotifyTransmittedBytes 10,
            QueueOp.NotifyTransmittedBytes 10, QueueOp.NotifyTransmittedBytes 10,
            QueueOp.NotifyTransmittedBytes 10]).calls.countP QueueOp.isNotifyQueuedBytes ∧
    (NetDeviceQueue.runNested FixedCap.limits
        (NetDeviceQueue.callbackBody FixedCap.limits
          (fun _ _ => [QueueOp.NotifyQueuedBytes 10]) 1)
        (NetDeviceQueue.ctor : NetDeviceQueue FixedCap Nat)
        [QueueOp.SetWakeCallback (some 7), QueueOp.SetQueueLimits (some (FixedCap.fresh 100)),
          QueueOp.NotifyQueuedBytes 110, QueueOp.NotifyTransmittedBytes 10,
          QueueOp.NotifyTransmittedBytes 10, QueueOp.NotifyTransmittedBytes 10,
          QueueOp.NotifyTransmittedBytes 10]).invoked = [7, 7, 7, 7] ∧
    (NetDeviceQueue.runNested FixedCap.limits
        (NetDeviceQueue.callbackBody FixedCap.limits
          (fun _ _ => [QueueOp.NotifyQueuedBytes 10]) 1)
        (NetDeviceQueue.ctor : NetDeviceQueue FixedCap Nat)
        [QueueOp.SetWakeCallback (some 7), QueueOp.SetQueueLimits (some (FixedCap.fresh 100)),
          QueueOp.NotifyQueuedBytes 110, QueueOp.NotifyTransmittedBytes 10,
          QueueOp.NotifyTransmittedBytes 10, QueueOp.NotifyTransmittedBytes 10,
          QueueOp.NotifyTransmittedBytes 10]).calls =
      [QueueOp.SetWakeCallback (some 7), QueueOp.SetQueueLimits (some (FixedCap.fresh 100)),
        QueueOp.NotifyQueuedBytes 110,
        QueueOp.NotifyTransmittedBytes 10, QueueOp.NotifyQueuedBytes 10,
        QueueOp.NotifyTransmittedBytes 10, QueueOp.NotifyQueuedBytes 10,
        QueueOp.NotifyTransmittedBytes 10, QueueOp.NotifyQueuedBytes 10,
        QueueOp.NotifyTransmittedBytes 10, QueueOp.NotifyQueuedBytes 10] ∧
    (NetDeviceQueue.runNested FixedCap.limits
        (NetDeviceQueue.callbackBody FixedCap.limits
          (fun _ _ => [QueueOp.NotifyQueuedBytes 10]) 1)
        (NetDeviceQueue.ctor : NetDeviceQueue FixedCap Nat)
        [QueueOp.SetWakeCallback (some 7), QueueOp.SetQueueLimits (some (FixedCap.fresh 100)),
          QueueOp.NotifyQueuedBytes 110, QueueOp.NotifyTransmittedBytes 10,
          QueueOp.NotifyTransmittedBytes 10, QueueOp.NotifyTransmittedBytes 10,
          QueueOp.NotifyTransmittedBytes 10]).queue =
      (NetDeviceQueue.runOps FixedCap.limits (enqueueOnWake FixedCap.limits 10)
        (NetDeviceQueue.ctor : NetDeviceQueue FixedCap Nat)
        [QueueOp.SetWakeCallback (some 7), QueueOp.SetQueueLimits (some (FixedCap.fresh 100)),
          QueueOp.NotifyQueuedBytes 110, QueueOp.NotifyTransmittedBytes 10,
          QueueOp.NotifyTransmittedBytes 10, QueueOp.NotifyTransmittedBytes 10,
          QueueOp.NotifyTransmittedBytes 10]).1 :=
  ⟨(C18_edge_triggered_amended FixedCap.limits notifyOnly
      (fun _ _ => [QueueOp.NotifyQueuedBytes 10]) 1
      (NetDeviceQueue.ctor : NetDeviceQueue FixedCap Nat) QueueOp.Wake
      [QueueOp.SetWakeCallback (some 7), QueueOp.SetQueueLimits (some (FixedCap.fresh 100)),
        QueueOp.NotifyQueuedBytes 110, QueueOp.NotifyTransmittedBytes 10,
        QueueOp.NotifyTransmittedBytes 10, QueueOp.NotifyTransmittedBytes 10,
        QueueOp.NotifyTransmittedBytes 10]).2.2.2.1, rfl, rfl, rfl⟩

/-- One device call on a queue with a fixed-cap limiter, callback as a pure notification:
a limiter stays attached, and if `stoppedByQueueLimits` was true exactly when `Available() < 0`,
it is so afterwards. -/
theorem NetDeviceQueue.step_backpressure (q : NetDeviceQueue FixedCap κ)
    (op : QueueOp FixedCap κ) (hop : op.isDeviceCall = true)
    (hq : ∃ ql, q.m_queueLimits = some ql ∧
      (q.m_stoppedByQueueLimits = true ↔ FixedCap.limits.Available ql < 0)) :
    ∃ ql, (q.step FixedCap.limits notifyOnly op).1.m_queueLimits = some ql ∧
      ((q.step FixedCap.limits notifyOnly op).1.m_stoppedByQueueLimits = true ↔
        FixedCap.limits.Available ql < 0) := by
  obtain ⟨ql, hql, hinv⟩ := hq
  cases q with
  | mk d l x cb dev =>
    simp only at hql hinv
    subst hql
    cases op with
    | Start => exact ⟨ql, rfl, hinv⟩
    | Stop => exact ⟨ql, rfl, hinv⟩
    | Wake =>
      refine ⟨ql, ?_, ?_⟩ <;> cases d <;> cases cb <;>
        simp [NetDeviceQueue.step, NetDeviceQueue.Wake, notifyOnly, hinv]
    | NotifyQueuedBytes bytes =>
      refine ⟨FixedCap.limits.Queued ql bytes, ?_, ?_⟩
      · simp only [NetDeviceQueue.step, NetDeviceQueue.NotifyQueuedBytes]
        split <;> rfl
      · simp only [NetDeviceQueue.step, NetDeviceQueue.NotifyQueuedBytes]
        simp only [FixedCap.limits] at hinv ⊢
        split
        · constructor
          · intro h
            have := hinv.mp h
            push_cast at *
            omega
          · intro h
            omega
        · constructor
          · intro _
            omega
          · intro _
            rfl
    | NotifyTransmittedBytes bytes =>
      by_cases hb : bytes = 0
      · refine ⟨ql, ?_, ?_⟩
        · simp [NetDeviceQueue.step, NetDeviceQueue.NotifyTransmittedBytes, hb]
        · simpa [NetDeviceQueue.step, NetDeviceQueue.NotifyTransmittedBytes, hb] using hinv
      · refine ⟨FixedCap.limits.Completed ql bytes, ?_, ?_⟩
        · simp only [NetDeviceQueue.step, NetDeviceQueue.NotifyTransmittedBytes, hb, if_false]
          split
          · rfl
          · cases l <;> cases cb <;> rfl
        · simp only [NetDeviceQueue.step, NetDeviceQueue.NotifyTransmittedBytes, hb, if_false]
          simp only [FixedCap.limits] at hinv ⊢
          split
          · constructor
            · intro _
              assumption
            · intro h
              apply hinv.mpr
              push_cast at *
              omega
          · cases l <;> cases cb <;> simp [notifyOnly] <;> push_cast at * <;> omega
    | ResetQueueLimits => simp [QueueOp.isDeviceCall] at hop
    | SetQueueLimits y => simp [QueueOp.isDeviceCall] at hop
    | SetWakeCallback y => simp [QueueOp.isDeviceCall] at hop

/-- A sequence of device calls keeps the limiter attached and `stoppedByQueueLimits` true
exactly when `Available() < 0`. -/
theorem NetDeviceQueue.runOps_backpressure (ops : List (QueueOp FixedCap κ)) :
    ∀ q : NetDeviceQueue FixedCap κ, (∀ op ∈ ops, op.isDeviceCall = true) →
      (∃ ql, q.m_queueLimits = some ql ∧
        (q.m_stoppedByQueueLimits = true ↔ FixedCap.limits.Available ql < 0)) →
      ∃ ql, (NetDeviceQueue.runOps FixedCap.limits notifyOnly q ops).1.m_queueLimits = some ql ∧
        ((NetDeviceQueue.runOps FixedCap.limits notifyOnly q ops).1.m_stoppedByQueueLimits
            = true ↔ FixedCap.limits.Available ql < 0) := by
  induction ops with
  | nil => intro q _ hq; exact hq
  | cons op ops ih =>
    intro q hops hq
    have h1 := NetDeviceQueue.step_backpressure q op (hops op (List.mem_cons_self op ops)) hq
    exact ih _ (fun o ho => hops o (List.mem_cons_of_mem op ho)) h1

/-- C19: a fresh queue with a fixed-cap limiter of capacity `cap >= 0` attached (and any
callback registered, taken as a pure notification). After every sequence of
`NotifyQueuedBytes`, `NotifyTransmittedBytes`, `Start`, `Stop` and `Wake` calls the limiter is
still attached and `stoppedByQueueLimits` is true if and only if `Available() < 0`; so
`IsStopped()` is true whenever the limiter is over its limit. -/
theorem C19_backpressure_invariant (cap : Int) (hcap : 0 ≤ cap) (cb : Option κ)
    (ops : List (QueueOp FixedCap κ)) (hops : ∀ op ∈ ops, op.isDeviceCall = true) :
    ∃ ql : FixedCap,
      (NetDeviceQueue.runOps FixedCap.limits notifyOnly
        (FixedCap.freshQueue cap cb) ops).1.m_queueLimits = some ql ∧
      ((NetDeviceQueue.runOps FixedCap.limits notifyOnly
        (FixedCap.freshQueue cap cb) ops).1.m_stoppedByQueueLimits = true ↔
        FixedCap.limits.Available ql < 0) ∧
      (FixedCap.limits.Available ql < 0 →
        (NetDeviceQueue.runOps FixedCap.limits notifyOnly
          (FixedCap.freshQueue cap cb) ops).1.IsStopped = true) := by
  have h0 : ∃ ql, (FixedCap.freshQueue cap cb).m_queueLimits = some ql ∧
      ((FixedCap.freshQueue cap cb).m_stoppedByQueueLimits = true ↔
        FixedCap.limits.Available ql < 0) := by
    refine ⟨FixedCap.fresh cap, rfl, ?_⟩
    simp only [FixedCap.freshQueue, NetDeviceQueue.SetQueueLimits,
      NetDeviceQueue.SetWakeCallback, NetDeviceQueue.ctor, FixedCap.limits, FixedCap.fresh]
    constructor
    · intro h; cases h
    · intro h
      push_cast at h
      omega
  obtain ⟨ql, h1, h2⟩ := NetDeviceQueue.runOps_backpressure ops _ hops h0
  refine ⟨ql, h1, h2, ?_⟩
  intro hneg
  simp [NetDeviceQueue.IsStopped, h2.mpr hneg]

/-- C19 at a concrete trace with capacity 100: after 60 and 50 bytes queued, a `Stop`, 5 bytes
transmitted and a `Wake`, `Available()` is -5 and the queue is limit-stopped. -/
theorem C19_backpressure_invariant_witness :
    ∃ ql : FixedCap,
      (NetDeviceQueue.runOps FixedCap.limits notifyOnly
        (FixedCap.freshQueue 100 (some 7))
        [QueueOp.NotifyQueuedBytes 60, QueueOp.NotifyQueuedBytes 50, QueueOp.Stop,
          QueueOp.NotifyTransmittedBytes 5, QueueOp.Wake]).1.m_queueLimits = some ql ∧
      ((NetDeviceQueue.runOps FixedCap.limits notifyOnly
        (FixedCap.freshQueue 100 (some 7))
        [QueueOp.NotifyQueuedBytes 60, QueueOp.NotifyQueuedBytes 50, QueueOp.Stop,
          QueueOp.NotifyTransmittedBytes 5, QueueOp.Wake]).1.m_stoppedByQueueLimits = true ↔
        FixedCap.limits.Available ql < 0) ∧
      (FixedCap.limits.Available ql < 0 →
        (NetDeviceQueue.runOps FixedCap.limits notifyOnly
          (FixedCap.freshQueue 100 (some 7))
          [QueueOp.NotifyQueuedBytes 60, QueueOp.NotifyQueuedBytes 50, QueueOp.Stop,
            QueueOp.NotifyTransmittedBytes 5, QueueOp.Wake]).1.IsStopped = true) :=
  C19_backpressure_invariant 100 (by decide) (some (7 : Nat))
    [QueueOp.NotifyQueuedBytes 60, QueueOp.NotifyQueuedBytes 50, QueueOp.Stop,
      QueueOp.NotifyTransmittedBytes 5, QueueOp.Wake] (by decide)

end QueueFlowProperties

/-! ## Properties of the RIP route entry -/

section RipRteProperties

/-- A `WriteU8` inside the buffer succeeds. -/
theorem Buffer.Iterator.WriteU8_ok (i : Buffer.Iterator) (b : Fin 256)
    (h : i.cur < i.data.length) :
    i.WriteU8 b = Except.ok { data := i.data.set i.cur b, cur := i.cur + 1 } := by
  simp [Buffer.Iterator.WriteU8, h]

/-- Writing a list of bytes that fits replaces the bytes from the position on. -/
theorem Buffer.Iterator.writeAll_ok (bs : List (Fin 256)) :
    ∀ i : Buffer.Iterator, i.cur + bs.length ≤ i.data.length →
      i.writeAll bs = Except.ok
        { data := i.data.take i.cur ++ bs ++ i.data.drop (i.cur + bs.length)
          cur := i.cur + bs.length } := by
  induction bs with
  | nil =>
    intro i _
    simp [Buffer.Iterator.writeAll]
  | cons b bs ih =>
    intro i h
    have hlt : i.cur < i.data.length := by
      simp only [List.length_cons] at h
      omega
    have hlen : i.cur + 1 + bs.length ≤ (i.data.set i.cur b).length := by
      simp only [List.length_cons] at h
      simp only [List.length_set]
      omega
    have e : i.cur + (bs.length + 1) = i.cur + 1 + bs.length := by omega
    have h1 : (i.data.set i.cur b).take (i.cur + 1) = i.data.take i.cur ++ [b] := by
      rw [List.set_eq_take_append_cons_drop, if_pos hlt]
      rw [List.take_append_eq_append_take]
      simp [List.take_take, List.length_take, Nat.min_eq_left (Nat.le_of_lt hlt)]
    have h2 : (i.data.set i.cur b).drop (i.cur + 1 + bs.length)
        = i.data.drop (i.cur + 1 + bs.length) :=
      List.drop_set_of_lt b i.data (by omega)
    simp only [Buffer.Iterator.writeAll, Buffer.Iterator.WriteU8_ok i b hlt]
    rw [ih _ hlen]
    simp only [h1, h2, List.length_cons, e, List.append_assoc, List.singleton_append]

/-- Writing two lists of bytes one after the other is writing their concatenation. -/
theorem Buffer.Iterator.writeAll_append (a b : List (Fin 256)) :
    ∀ i : Buffer.Iterator,
      i.writeAll (a ++ b) = (i.writeAll a).bind (fun i1 => i1.writeAll b) := by
  induction a with
  | nil => intro i; rfl
  | cons x a ih =>
    intro i
    simp only [List.cons_append, Buffer.Iterator.writeAll]
    cases i.WriteU8 x with
    | error f => rfl
    | ok i1 => exact ih i1

/-- `WriteHtonU16` writes the two bytes of the value, most significant first. -/
theorem Buffer.Iterator.WriteHtonU16_eq (i : Buffer.Iterator) (v : Nat) :
    i.WriteHtonU16 v = i.writeAll (bigEndian16 v) := by
  simp only [Buffer.Iterator.WriteHtonU16, bigEndian16, Buffer.Iterator.writeAll, bind,
    Except.bind]
  cases i.WriteU8 (toU8 (v / 256)) with
  | error f => rfl
  | ok i1 =>
    dsimp only
    cases i1.WriteU8 (toU8 v) <;> rfl

/-- `WriteHtonU32` writes the four bytes of the value, most significant first. -/
theorem Buffer.Iterator.WriteHtonU32_eq (i : Buffer.Iterator) (v : Nat) :
    i.WriteHtonU32 v = i.writeAll (bigEndian32 v) := by
  simp only [Buffer.Iterator.WriteHtonU32, bigEndian32, Buffer.Iterator.writeAll, bind,
    Except.bind]
  cases i.WriteU8 (toU8 (v / 16777216)) with
  | error f => rfl
  | ok i1 =>
    dsimp only
    cases i1.WriteU8 (toU8 (v / 65536)) with
    | error f => rfl
    | ok i2 =>
      dsimp only
      cases i2.WriteU8 (toU8 (v / 256)) with
      | error f => rfl
      | ok i3 =>
        dsimp only
        cases i3.WriteU8 (toU8 v) <;> rfl

/-- `RipRte::Serialize` writes the bytes of the wire format, in order. -/
theorem RipRte.Serialize_eq_writeAll (rte : RipRte) (i : Buffer.Iterator) :
    rte.Serialize i = i.writeAll rte.wireFormat := by
  simp only [RipRte.Serialize, RipRte.wireFormat, Buffer.Iterator.writeAll_append,
    Buffer.Iterator.WriteHtonU16_eq, Buffer.Iterator.WriteHtonU32_eq, bind]
  cases i.writeAll (bigEndian16 2) with
  | error f => rfl
  | ok i1 =>
    dsimp only [Except.bind]
    cases i1.writeAll (bigEndian16 rte.m_tag) with
    | error f => rfl
    | ok i2 =>
      dsimp only [Except.bind]
      cases i2.writeAll (bigEndian32 rte.m_prefix.Get) with
      | error f => rfl
      | ok i3 =>
        dsimp only [Except.bind]
        cases i3.writeAll (bigEndian32 rte.m_subnetMask.Get) with
        | error f => rfl
        | ok i4 => rfl

/-- A `ReadU8` at a position that holds byte `b`. -/
theorem Buffer.Iterator.ReadU8_at (d : List (Fin 256)) (c : Nat) (b : Fin 256)
    (h : d[c]? = some b) :
    ({ data := d, cur := c } : Buffer.Iterator).ReadU8 =
      Except.ok (b.val, { data := d, cur := c + 1 }) := by
  simp [Buffer.Iterator.ReadU8, h]

/-- A `ReadNtohU16` at a position that holds bytes `b0 b1`. -/
theorem Buffer.Iterator.ReadNtohU16_at (d : List (Fin 256)) (c : Nat) (b0 b1 : Fin 256)
    (h0 : d[c]? = some b0) (h1 : d[c + 1]? = some b1) :
    ({ data := d, cur := c } : Buffer.Iterator).ReadNtohU16 =
      Except.ok (b0.val * 256 + b1.val, { data := d, cur := c + 2 }) := by
  simp only [Buffer.Iterator.ReadNtohU16, bind, Except.bind,
    Buffer.Iterator.ReadU8_at d c b0 h0, Buffer.Iterator.ReadU8_at d (c + 1) b1 h1]
  rfl

/-- A `ReadNtohU32` at a position that holds bytes `b0 b1 b2 b3`. -/
theorem Buffer.Iterator.ReadNtohU32_at (d : List (Fin 256)) (c : Nat) (b0 b1 b2 b3 : Fin 256)
    (h0 : d[c]? = some b0) (h1 : d[c + 1]? = some b1) (h2 : d[c + 2]? = some b2)
    (h3 : d[c + 3]? = some b3) :
    ({ data := d, cur := c } : Buffer.Iterator).ReadNtohU32 =
      Except.ok (b0.val * 16777216 + b1.val * 65536 + b2.val * 256 + b3.val,
        { data := d, cur := c + 4 }) := by
  simp only [Buffer.Iterator.ReadNtohU32, bind, Except.bind,
    Buffer.Iterator.ReadU8_at d c b0 h0, Buffer.Iterator.ReadU8_at d (c + 1) b1 h1,
    Buffer.Iterator.ReadU8_at d (c + 1 + 1) b2 h2,
    Buffer.Iterator.ReadU8_at d (c + 1 + 1 + 1) b3 h3]
  rfl

/-- The bytes of a list placed between two others are found after the first one. -/
theorem getElem?_between {α : Type} (pre w post : List α) (k : Nat) (hk : k < w.length) :
    (pre ++ w ++ post)[pre.length + k]? = w[k]? := by
  rw [List.append_assoc, List.getElem?_append_right (Nat.le_add_right _ _),
    Nat.add_sub_cancel_left, List.getElem?_append_left hk]

/-- The two bytes of a 16-bit value give the value back. -/
theorem bigEndian16_value (v : Nat) (h : v < 65536) :
    (toU8 (v / 256)).val * 256 + (toU8 v).val = v := by
  simp only [toU8]
  omega

/-- The four bytes of a 32-bit value give the value back. -/
theorem bigEndian32_value (v : Nat) (h : v < 4294967296) :
    (toU8 (v / 16777216)).val * 16777216 + (toU8 (v / 65536)).val * 65536 +
      (toU8 (v / 256)).val * 256 + (toU8 v).val = v := by
  simp only [toU8]
  omega

/-- Deserializing at a position where the wire format of an entry in range is found returns
20 and that entry. -/
theorem RipRte.Deserialize_wireFormat (rte r0 : RipRte) (h : rte.InRange)
    (pre post : List (Fin 256)) :
    r0.Deserialize { data := pre ++ rte.wireFormat ++ post, cur := pre.length } =
      Except.ok (20, rte) := by
  have hb : ∀ k : Nat, k < 20 →
      (pre ++ rte.wireFormat ++ post)[pre.length + k]? = rte.wireFormat[k]? :=
    fun k hk => getElem?_between pre rte.wireFormat post k hk
  obtain ⟨ht, hp, hm, hn, hc⟩ := h
  have r0' := Buffer.Iterator.ReadNtohU16_at (pre ++ rte.wireFormat ++ post) pre.length
    (toU8 (2 / 256)) (toU8 2) (hb 0 (by decide)) (hb 1 (by decide))
  have r1 := Buffer.Iterator.ReadNtohU16_at (pre ++ rte.wireFormat ++ post) (pre.length + 2)
    (toU8 (rte.m_tag / 256)) (toU8 rte.m_tag) (hb 2 (by decide)) (hb 3 (by decide))
  have r2 := Buffer.Iterator.ReadNtohU32_at (pre ++ rte.wireFormat ++ post)
    (pre.length + 2 + 2)
    (toU8 (rte.m_prefix.Get / 16777216)) (toU8 (rte.m_prefix.Get / 65536))
    (toU8 (rte.m_prefix.Get / 256)) (toU8 rte.m_prefix.Get)
    (hb 4 (by decide)) (hb 5 (by decide)) (hb 6 (by decide)) (hb 7 (by decide))
  have r3 := Buffer.Iterator.ReadNtohU32_at (pre ++ rte.wireFormat ++ post)
    (pre.length + 2 + 2 + 4)
    (toU8 (rte.m_subnetMask.Get / 16777216)) (toU8 (rte.m_subnetMask.Get / 65536))
    (toU8 (rte.m_subnetMask.Get / 256)) (toU8 rte.m_subnetMask.Get)
    (hb 8 (by decide)) (hb 9 (by decide)) (hb 10 (by decide)) (hb 11 (by decide))
  have r4 := Buffer.Iterator.ReadNtohU32_at (pre ++ rte.wireFormat ++ post)
    (pre.length + 2 + 2 + 4 + 4)
    (toU8 (rte.m_nextHop.Get / 16777216)) (toU8 (rte.m_nextHop.Get / 65536))
    (toU8 (rte.m_nextHop.Get / 256)) (toU8 rte.m_nextHop.Get)
    (hb 12 (by decide)) (hb 13 (by decide)) (hb 14 (by decide)) (hb 15 (by decide))
  have r5 := Buffer.Iterator.ReadNtohU32_at (pre ++ rte.wireFormat ++ post)
    (pre.length + 2 + 2 + 4 + 4 + 4)
    (toU8 (rte.m_metric / 16777216)) (toU8 (rte.m_metric / 65536))
    (toU8 (rte.m_metric / 256)) (toU8 rte.m_metric)
    (hb 16 (by decide)) (hb 17 (by decide)) (hb 18 (by decide)) (hb 19 (by decide))
  rw [bigEndian16_value rte.m_tag ht] at r1
  rw [bigEndian32_value _ hp] at r2
  rw [bigEndian32_value _ hm] at r3
  rw [bigEndian32_value _ hn] at r4
  rw [bigEndian32_value _ hc] at r5
  have e2 : (toU8 (2 / 256)).val * 256 + (toU8 2).val = 2 := by decide
  rw [e2] at r0'
  simp only [RipRte.Deserialize, bind, Except.bind, r0', r1, r2, r3, r4, r5, pure, Except.pure,
    RipRte.GetSerializedSize, Ipv4Address.Set, Ipv4Mask.Set, ne_eq, not_true_eq_false,
    if_false]
  cases rte with
  | mk t p m n c =>
    cases p; cases m; cases n
    rfl

/-- C20: for every route entry whose members are in the range of their types, and a buffer
with room for 20 bytes at the position: `GetSerializedSize()` is 20; `Serialize` succeeds,
advances its iterator by 20 and replaces exactly the 20 bytes at the position by the wire
format (address family 2 first, every field big-endian), leaving the rest of the buffer as it
was; `Deserialize` at that position, on any entry, returns 20 and leaves the entry equal to the
serialized one (same tag, prefix, mask, next hop and metric). `Deserialize` returns 0 and leaves
the entry alone when the first 16-bit field read is not 2. -/
theorem C20_ripRte_roundtrip (rte : RipRte) (h : rte.InRange) (i : Buffer.Iterator)
    (hroom : i.cur + 20 ≤ i.data.length) :
    rte.GetSerializedSize = 20 ∧
    (rte.wireFormat.length = 20 ∧ rte.wireFormat.take 2 = [0, 2]) ∧
    rte.Serialize i = Except.ok
      { data := i.data.take i.cur ++ rte.wireFormat ++ i.data.drop (i.cur + 20)
        cur := i.cur + 20 } ∧
    (∀ r0 : RipRte,
      r0.Deserialize
          { data := i.data.take i.cur ++ rte.wireFormat ++ i.data.drop (i.cur + 20)
            cur := i.cur } = Except.ok (20, rte)) ∧
    (∀ (r0 : RipRte) (j j1 : Buffer.Iterator) (v : Nat),
      j.ReadNtohU16 = Except.ok (v, j1) → v ≠ 2 → r0.Deserialize j = Except.ok (0, r0)) := by
  have hlen : rte.wireFormat.length = 20 := rfl
  refine ⟨rfl, ⟨hlen, rfl⟩, ?_, ?_, ?_⟩
  · rw [RipRte.Serialize_eq_writeAll, Buffer.Iterator.writeAll_ok rte.wireFormat i
      (by rw [hlen]; exact hroom), hlen]
  · intro r0
    have hpre : (i.data.take i.cur).length = i.cur := by
      rw [List.length_take]
      omega
    have hd := RipRte.Deserialize_wireFormat rte r0 h (i.data.take i.cur)
      (i.data.drop (i.cur + 20))
    rw [hpre] at hd
    exact hd
  · intro r0 j j1 v hj hv
    simp [RipRte.Deserialize, bind, Except.bind, hj, hv, pure, Except.pure]

/-- C20 at a concrete entry (tag 258, prefix 192.168.0.1, mask 255.255.255.0, next hop
10.0.0.1, metric 3) and an empty 20-byte buffer: the bytes written, and the entry read back
from them. -/
theorem C20_ripRte_roundtrip_witness :
    (({ m_tag := 258, m_prefix := { m_address := 3232235521 },
        m_subnetMask := { m_mask := 4294967040 }, m_nextHop := { m_address := 167772161 },
        m_metric := 3 } : RipRte).Serialize { data := List.replicate 20 0, cur := 0 }
      = Except.ok
          { data := [0, 2, 1, 2, 192, 168, 0, 1, 255, 255, 255, 0, 10, 0, 0, 1, 0, 0, 0, 3]
            cur := 20 }) ∧
    (RipRte.ctor.Deserialize
        { data := [0, 2, 1, 2, 192, 168, 0, 1, 255, 255, 255, 0, 10, 0, 0, 1, 0, 0, 0, 3]
          cur := 0 }
      = Except.ok (20,
          { m_tag := 258, m_prefix := { m_address := 3232235521 },
            m_subnetMask := { m_mask := 4294967040 }, m_nextHop := { m_address := 167772161 },
            m_metric := 3 })) :=
  have h := C20_ripRte_roundtrip
    { m_tag := 258, m_prefix := { m_address := 3232235521 },
      m_subnetMask := { m_mask := 4294967040 }, m_nextHop := { m_address := 167772161 },
      m_metric := 3 }
    ⟨by decide, by decide, by decide, by decide, by decide⟩
    { data := List.replicate 20 0, cur := 0 } (by decide)
  ⟨h.2.2.1, h.2.2.2.1 RipRte.ctor⟩

end RipRteProperties

/-! ## Properties of the RIP header -/

section RipHeaderProperties

/-- `WriteU16` writes the two bytes of the value, least significant first. -/
theorem Buffer.Iterator.WriteU16_eq (i : Buffer.Iterator) (v : Nat) :
    i.WriteU16 v = i.writeAll [toU8 v, toU8 (v / 256)] := by
  simp only [Buffer.Iterator.WriteU16, Buffer.Iterator.writeAll, bind, Except.bind]
  cases i.WriteU8 (toU8 v) with
  | error f => rfl
  | ok i1 =>
    dsimp only
    cases i1.WriteU8 (toU8 (v / 256)) <;> rfl

/-- The wire format of a route entry has 20 bytes. -/
theorem RipRte.wireFormat_length (rte : RipRte) : rte.wireFormat.length = 20 := rfl

/-- The wire formats of `n` route entries have `20 * n` bytes. -/
theorem RipHeader.rtesWireFormat_length (l : List RipRte) :
    (RipHeader.rtesWireFormat l).length = 20 * l.length := by
  induction l with
  | nil => rfl
  | cons rte rest ih =>
    simp only [RipHeader.rtesWireFormat, List.length_append, RipRte.wireFormat_length, ih,
      List.length_cons]
    omega

/-- The wire format of a header has 4 bytes and 20 more for each route entry. -/
theorem RipHeader.header_wireFormat_length (h : RipHeader) :
    h.wireFormat.length = 4 + 20 * h.m_rteList.length := by
  simp only [RipHeader.wireFormat, List.length_append, RipHeader.rtesWireFormat_length,
    List.length_cons, List.length_nil]

/-- Writing bytes that fit keeps the size of the buffer. -/
theorem Buffer.Iterator.writeAll_data_length (bs : List (Fin 256)) (i : Buffer.Iterator)
    (h : i.cur + bs.length ≤ i.data.length) :
    (i.data.take i.cur ++ bs ++ i.data.drop (i.cur + bs.length)).length = i.data.length := by
  simp only [List.length_append, List.length_take, List.length_drop]
  omega

/-- With room for them, the loop of `RipHeader::Serialize` writes the wire formats of the
entries one after the other. -/
theorem RipHeader.serializeRtes_eq_writeAll (l : List RipRte) :
    ∀ i : Buffer.Iterator, i.cur + 20 * l.length ≤ i.data.length →
      RipHeader.serializeRtes l i = i.writeAll (RipHeader.rtesWireFormat l) := by
  induction l with
  | nil => intro i _; rfl
  | cons rte rest ih =>
    intro i hroom
    simp only [List.length_cons] at hroom
    have h20 : i.cur + rte.wireFormat.length ≤ i.data.length := by
      rw [RipRte.wireFormat_length]
      omega
    have hw := Buffer.Iterator.writeAll_ok rte.wireFormat i h20
    have hlen := Buffer.Iterator.writeAll_data_length rte.wireFormat i h20
    rw [RipRte.wireFormat_length] at hw hlen
    have hnext : i.cur + 20 ≤
        (i.data.take i.cur ++ rte.wireFormat ++ i.data.drop (i.cur + 20)).length := by
      rw [hlen]
      omega
    simp only [RipHeader.serializeRtes, RipHeader.rtesWireFormat,
      RipRte.Serialize_eq_writeAll, hw, Buffer.Iterator.writeAll_append, Except.bind,
      Buffer.Iterator.Next, NS_ASSERT, RipRte.GetSerializedSize, hnext, decide_True, if_true]
    exact ih _ (by simp only [hlen]; omega)

/-- `RipHeader::Serialize` writes the four header bytes and then runs its loop. -/
theorem RipHeader.Serialize_eq (h : RipHeader) (start : Buffer.Iterator) :
    h.Serialize start =
      (start.writeAll [toU8 h.m_command, 2, 0, 0]).bind
        (fun i => RipHeader.serializeRtes h.m_rteList i) := by
  simp only [RipHeader.Serialize, Buffer.Iterator.WriteU16_eq, Buffer.Iterator.writeAll, bind,
    Except.bind]
  cases start.WriteU8 (toU8 h.m_command) with
  | error f => rfl
  | ok i1 =>
    dsimp only
    cases i1.WriteU8 2 with
    | error f => rfl
    | ok i2 =>
      rfl

/-- With room for it, `RipHeader::Serialize` writes the wire format of the header. -/
theorem RipHeader.header_Serialize_eq_writeAll (h : RipHeader) (start : Buffer.Iterator)
    (hroom : start.cur + (4 + 20 * h.m_rteList.length) ≤ start.data.length) :
    h.Serialize start = start.writeAll h.wireFormat := by
  have hl4 : [toU8 h.m_command, (2 : Fin 256), 0, 0].length = 4 := rfl
  have h4 : start.cur + [toU8 h.m_command, (2 : Fin 256), 0, 0].length ≤ start.data.length := by
    rw [hl4]
    omega
  have hw := Buffer.Iterator.writeAll_ok [toU8 h.m_command, 2, 0, 0] start h4
  have hlen := Buffer.Iterator.writeAll_data_length [toU8 h.m_command, 2, 0, 0] start h4
  rw [hl4] at hw hlen
  rw [RipHeader.Serialize_eq, RipHeader.wireFormat, Buffer.Iterator.writeAll_append, hw]
  simp only [Except.bind]
  exact RipHeader.serializeRtes_eq_writeAll h.m_rteList _ (by
    simp only [hlen]
    omega)

/-- A `ReadU16` at a position that holds bytes `b0 b1`. -/
theorem Buffer.Iterator.ReadU16_at (d : List (Fin 256)) (c : Nat) (b0 b1 : Fin 256)
    (h0 : d[c]? = some b0) (h1 : d[c + 1]? = some b1) :
    ({ data := d, cur := c } : Buffer.Iterator).ReadU16 =
      Except.ok (b1.val * 256 + b0.val, { data := d, cur := c + 2 }) := by
  simp only [Buffer.Iterator.ReadU16, bind, Except.bind,
    Buffer.Iterator.ReadU8_at d c b0 h0, Buffer.Iterator.ReadU8_at d (c + 1) b1 h1]
  rfl

/-- A `Next` that stays inside the buffer succeeds. -/
theorem Buffer.Iterator.Next_ok (i : Buffer.Iterator) (delta : Nat)
    (h : i.cur + delta ≤ i.data.length) :
    i.Next delta = Except.ok { data := i.data, cur := i.cur + delta } := by
  simp [Buffer.Iterator.Next, NS_ASSERT, h]

/-- The loop of `RipHeader::Deserialize`, run once for each entry at a position where the wire
formats of entries in range are found, appends these entries in order. -/
theorem RipHeader.deserializeRtes_wireFormat (l : List RipRte) :
    ∀ (pre post : List (Fin 256)) (acc : List RipRte), (∀ rte ∈ l, rte.InRange) →
      RipHeader.deserializeRtes l.length
          { data := pre ++ RipHeader.rtesWireFormat l ++ post, cur := pre.length } acc =
        Except.ok (acc ++ l) := by
  induction l with
  | nil => intro pre post acc _; simp [RipHeader.deserializeRtes]
  | cons rte rest ih =>
    intro pre post acc hr
    have hrte : rte.InRange := hr rte (List.mem_cons_self rte rest)
    have hrest : ∀ r ∈ rest, r.InRange := fun r hm => hr r (List.mem_cons_of_mem rte hm)
    have hd : pre ++ RipHeader.rtesWireFormat (rte :: rest) ++ post =
        pre ++ rte.wireFormat ++ (RipHeader.rtesWireFormat rest ++ post) := by
      simp only [RipHeader.rtesWireFormat, List.append_assoc]
    have hd2 : pre ++ rte.wireFormat ++ (RipHeader.rtesWireFormat rest ++ post) =
        (pre ++ rte.wireFormat) ++ RipHeader.rtesWireFormat rest ++ post := by
      simp only [List.append_assoc]
    have hnext : pre.length + 20 ≤
        (pre ++ rte.wireFormat ++ (RipHeader.rtesWireFormat rest ++ post)).length := by
      simp only [List.length_append, RipRte.wireFormat_length]
      omega
    have hlen : (pre ++ rte.wireFormat).length = pre.length + 20 := by
      simp only [List.length_append, RipRte.wireFormat_length]
    have hN := Buffer.Iterator.Next_ok
      { data := pre ++ rte.wireFormat ++ (RipHeader.rtesWireFormat rest ++ post)
        cur := pre.length } 20 hnext
    rw [hd]
    simp only [List.length_cons, RipHeader.deserializeRtes,
      RipRte.Deserialize_wireFormat rte RipRte.ctor hrte pre, hN]
    rw [hd2, ← hlen, ih (pre ++ rte.wireFormat) post (acc ++ [rte]) hrest]
    simp only [List.append_assoc, List.singleton_append]

/-- Deserializing, into a header without entries, at a position where the wire format of a
header is found up to the end of the buffer: the value returned and the header read, for a
command that is `REQUEST` or `RESPONSE`, at most 255 entries, each in range. -/
theorem RipHeader.header_Deserialize_wireFormat (h h0 : RipHeader)
    (hcmd : h.m_command = RipHeader.REQUEST ∨ h.m_command = RipHeader.RESPONSE)
    (hn : h.m_rteList.length ≤ 255) (hr : ∀ rte ∈ h.m_rteList, rte.InRange)
    (h0l : h0.m_rteList = []) (pre : List (Fin 256)) :
    h0.Deserialize { data := pre ++ h.wireFormat, cur := pre.length } =
      Except.ok (4 + 20 * h.m_rteList.length, h) := by
  have hc : (toU8 h.m_command).val = h.m_command := by
    rcases hcmd with hc | hc <;> rw [hc] <;> rfl
  have hb : ∀ k : Nat, k < 4 →
      (pre ++ h.wireFormat)[pre.length + k]? = [toU8 h.m_command, (2 : Fin 256), 0, 0][k]? := by
    intro k hk
    have := getElem?_between pre [toU8 h.m_command, (2 : Fin 256), 0, 0]
      (RipHeader.rtesWireFormat h.m_rteList) k hk
    simpa only [RipHeader.wireFormat, List.append_assoc] using this
  have r0 := Buffer.Iterator.ReadU8_at (pre ++ h.wireFormat) pre.length (toU8 h.m_command)
    (hb 0 (by decide))
  have r1 := Buffer.Iterator.ReadU8_at (pre ++ h.wireFormat) (pre.length + 1) 2
    (hb 1 (by decide))
  have r2 := Buffer.Iterator.ReadU16_at (pre ++ h.wireFormat) (pre.length + 1 + 1) 0 0
    (hb 2 (by decide)) (hb 3 (by decide))
  rw [hc] at r0
  have hrem : ({ data := pre ++ h.wireFormat, cur := pre.length + 1 + 1 + 2 } :
      Buffer.Iterator).GetRemainingSize / 20 % 256 = h.m_rteList.length := by
    simp only [Buffer.Iterator.GetRemainingSize, List.length_append,
      RipHeader.header_wireFormat_length]
    omega
  have hdata : pre ++ h.wireFormat =
      (pre ++ [toU8 h.m_command, 2, 0, 0]) ++ RipHeader.rtesWireFormat h.m_rteList ++ [] := by
    simp only [RipHeader.wireFormat, List.append_assoc, List.append_nil]
  have hcur : pre.length + 1 + 1 + 2 = (pre ++ [toU8 h.m_command, (2 : Fin 256), 0, 0]).length := by
    simp only [List.length_append, List.length_cons, List.length_nil]
  have hl := RipHeader.deserializeRtes_wireFormat h.m_rteList
    (pre ++ [toU8 h.m_command, 2, 0, 0]) [] [] hr
  rw [← hdata, ← hcur] at hl
  have hsize : (4 + h.m_rteList.length * 20) % 4294967296 = 4 + 20 * h.m_rteList.length := by
    omega
  simp only [RipHeader.Deserialize, bind, Except.bind, r0, r1, r2, hcmd, if_true, pure,
    Except.pure, hrem, h0l, hl, RipHeader.GetSerializedSize, RipRte.GetSerializedSize, hsize,
    List.nil_append]
  simp

/-- C21: for every header whose command is `REQUEST` or `RESPONSE` and whose list has
`n <= 255` entries (each with members in the range of their types), and a buffer with room for
`4 + 20 * n` bytes at the position: `GetSerializedSize()` is `4 + 20 * n`; `Serialize` succeeds
and replaces exactly the `4 + 20 * n` bytes at the position by the wire format of the header,
leaving the rest of the buffer as it was; `Deserialize` of exactly those bytes into a newly
constructed header returns `4 + 20 * n` and leaves the header equal to the serialized one: the
same command and the same entries in the same order. -/
theorem C21_ripHeader_roundtrip (h : RipHeader)
    (hcmd : h.m_command = RipHeader.REQUEST ∨ h.m_command = RipHeader.RESPONSE)
    (hn : h.m_rteList.length ≤ 255) (hr : ∀ rte ∈ h.m_rteList, rte.InRange)
    (start : Buffer.Iterator)
    (hroom : start.cur + (4 + 20 * h.m_rteList.length) ≤ start.data.length) :
    h.GetSerializedSize = 4 + 20 * h.m_rteList.length ∧
    h.wireFormat.length = 4 + 20 * h.m_rteList.length ∧
    h.Serialize start = Except.ok
      { data := start.data.take start.cur ++ h.wireFormat ++
          start.data.drop (start.cur + (4 + 20 * h.m_rteList.length))
        cur := start.cur + (4 + 20 * h.m_rteList.length) } ∧
    RipHeader.ctor.Deserialize { data := h.wireFormat, cur := 0 } =
      Except.ok (4 + 20 * h.m_rteList.length, h) ∧
    (∀ pre : List (Fin 256),
      RipHeader.ctor.Deserialize { data := pre ++ h.wireFormat, cur := pre.length } =
        Except.ok (4 + 20 * h.m_rteList.length, h)) := by
  have hlen := RipHeader.header_wireFormat_length h
  have hd := RipHeader.header_Deserialize_wireFormat h RipHeader.ctor hcmd hn hr rfl
  refine ⟨?_, hlen, ?_, hd [], hd⟩
  · simp only [RipHeader.GetSerializedSize, RipRte.GetSerializedSize]
    omega
  · rw [RipHeader.header_Serialize_eq_writeAll h start hroom,
      Buffer.Iterator.writeAll_ok h.wireFormat start (by rw [hlen]; exact hroom), hlen]

/-- C21 at a concrete header: a `RESPONSE` with two entries, written to a 44-byte buffer and
read back into a newly constructed header. -/
theorem C21_ripHeader_roundtrip_witness :
    (({ m_command := 2,
        m_rteList := [RipRte.ctor, { RipRte.ctor with m_tag := 258, m_metric := 3 }] } :
        RipHeader).Serialize { data := List.replicate 44 9, cur := 0 }
      = Except.ok
          { data := [2, 2, 0, 0,
              0, 2, 0, 0, 127, 0, 0, 1, 0, 0, 0, 0, 0, 0, 0, 0, 0, 0, 0, 16,
              0, 2, 1, 2, 127, 0, 0, 1, 0, 0, 0, 0, 0, 0, 0, 0, 0, 0, 0, 3]
            cur := 44 }) ∧
    (RipHeader.ctor.Deserialize
        { data := [2, 2, 0, 0,
            0, 2, 0, 0, 127, 0, 0, 1, 0, 0, 0, 0, 0, 0, 0, 0, 0, 0, 0, 16,
            0, 2, 1, 2, 127, 0, 0, 1, 0, 0, 0, 0, 0, 0, 0, 0, 0, 0, 0, 3]
          cur := 0 }
      = Except.ok (44,
          { m_command := 2,
            m_rteList := [RipRte.ctor, { RipRte.ctor with m_tag := 258, m_metric := 3 }] })) :=
  have h := C21_ripHeader_roundtrip
    { m_command := 2,
      m_rteList := [RipRte.ctor, { RipRte.ctor with m_tag := 258, m_metric := 3 }] }
    (Or.inr rfl) (by decide)
    (by
      intro rte hrte
      simp only [List.mem_cons, List.mem_singleton, List.not_mem_nil, or_false] at hrte
      rcases hrte with e | e <;> subst e <;>
        exact ⟨by decide, by decide, by decide, by decide, by decide⟩)
    { data := List.replicate 44 9, cur := 0 } (by decide)
  ⟨h.2.2.1, h.2.2.2.1⟩

/-- A byte inside the buffer is found by `getElem?`. -/
theorem getElem?_getD_of_lt (d : List (Fin 256)) (k : Nat) (h : k < d.length) :
    d[k]? = some (d.getD k 0) := by
  simp [List.getD_eq_getElem?_getD, List.getElem?_eq_getElem h]

/-- With 20 bytes left at the position, `RipRte::Deserialize` returns, and it returns 0 or
20. -/
theorem RipRte.Deserialize_returns (r0 : RipRte) (i : Buffer.Iterator)
    (h : i.cur + 20 ≤ i.data.length) :
    ∃ (ret : Nat) (r : RipRte), r0.Deserialize i = Except.ok (ret, r) ∧ (ret = 0 ∨ ret = 20) := by
  cases i with
  | mk d c =>
    simp only at h
    have hb : ∀ k : Nat, k < 20 → d[c + k]? = some (d.getD (c + k) 0) :=
      fun k hk => getElem?_getD_of_lt d (c + k) (by omega)
    have r0' := Buffer.Iterator.ReadNtohU16_at d c _ _ (hb 0 (by decide)) (hb 1 (by decide))
    have r1 := Buffer.Iterator.ReadNtohU16_at d (c + 2) _ _ (hb 2 (by decide))
      (hb 3 (by decide))
    have r2 := Buffer.Iterator.ReadNtohU32_at d (c + 2 + 2) _ _ _ _ (hb 4 (by decide))
      (hb 5 (by decide)) (hb 6 (by decide)) (hb 7 (by decide))
    have r3 := Buffer.Iterator.ReadNtohU32_at d (c + 2 + 2 + 4) _ _ _ _ (hb 8 (by decide))
      (hb 9 (by decide)) (hb 10 (by decide)) (hb 11 (by decide))
    have r4 := Buffer.Iterator.ReadNtohU32_at d (c + 2 + 2 + 4 + 4) _ _ _ _ (hb 12 (by decide))
      (hb 13 (by decide)) (hb 14 (by decide)) (hb 15 (by decide))
    have r5 := Buffer.Iterator.ReadNtohU32_at d (c + 2 + 2 + 4 + 4 + 4) _ _ _ _
      (hb 16 (by decide)) (hb 17 (by decide)) (hb 18 (by decide)) (hb 19 (by decide))
    simp only [Nat.add_zero] at r0'
    by_cases hfam : (d.getD c 0).val * 256 + (d.getD (c + 1) 0).val = 2
    · have hres : ∃ r : RipRte,
          r0.Deserialize { data := d, cur := c } = Except.ok (20, r) := by
        simp only [RipRte.Deserialize, bind, Except.bind, r0', r1, r2, r3, r4, r5, pure,
          Except.pure, hfam, ne_eq, not_true_eq_false, if_false, RipRte.GetSerializedSize]
        exact ⟨_, rfl⟩
      obtain ⟨r, hr⟩ := hres
      exact ⟨20, r, hr, Or.inr rfl⟩
    · refine ⟨0, r0, ?_, Or.inl rfl⟩
      simp only [RipRte.Deserialize, bind, Except.bind, r0', pure, Except.pure, hfam, ne_eq,
        not_false_eq_true, if_true]

/-- With room for `count` entries at the position, the loop of `RipHeader::Deserialize`
returns and appends exactly `count` entries. -/
theorem RipHeader.deserializeRtes_returns (count : Nat) :
    ∀ (i : Buffer.Iterator) (acc : List RipRte), i.cur + 20 * count ≤ i.data.length →
      ∃ l : List RipRte,
        RipHeader.deserializeRtes count i acc = Except.ok (acc ++ l) ∧ l.length = count := by
  induction count with
  | zero => intro i acc _; exact ⟨[], by simp [RipHeader.deserializeRtes], rfl⟩
  | succ n ih =>
    intro i acc hroom
    obtain ⟨ret, r, hd, hret⟩ := RipRte.Deserialize_returns RipRte.ctor i (by omega)
    have hnext : i.cur + ret ≤ i.data.length := by
      rcases hret with e | e <;> omega
    obtain ⟨l, hl, hlen⟩ := ih { data := i.data, cur := i.cur + ret } (acc ++ [r])
      (by
        simp only
        rcases hret with e | e <;> omega)
    refine ⟨r :: l, ?_, by simp [hlen]⟩
    simp only [RipHeader.deserializeRtes, hd, Buffer.Iterator.Next_ok i ret hnext, hl,
      List.append_assoc, List.singleton_append]

/-- On a buffer that holds only the four header bytes `1 2 0 0`, `RipHeader::Deserialize` sets
the command and returns the serialized size of the header, a 32-bit value. -/
theorem RipHeader.Deserialize_no_entries (h : RipHeader) :
    h.Deserialize { data := [1, 2, 0, 0], cur := 0 } =
      Except.ok ((4 + h.m_rteList.length * 20) % 4294967296,
        { m_command := 1, m_rteList := h.m_rteList }) := by
  rfl

/-- `RipHeader::Deserialize` when the first byte is neither `REQUEST` nor `RESPONSE`. -/
theorem RipHeader.Deserialize_bad_command (h : RipHeader) (d : List (Fin 256)) (c : Nat)
    (b0 : Fin 256) (g0 : d[c]? = some b0)
    (hcmd : ¬ (b0.val = RipHeader.REQUEST ∨ b0.val = RipHeader.RESPONSE)) :
    h.Deserialize { data := d, cur := c } = Except.ok (0, h) := by
  simp only [RipHeader.Deserialize, bind, Except.bind, Buffer.Iterator.ReadU8_at d c b0 g0,
    hcmd, if_false, pure, Except.pure]

/-- `RipHeader::Deserialize` when the command is accepted and the version byte is not 2. -/
theorem RipHeader.Deserialize_bad_version (h : RipHeader) (d : List (Fin 256)) (c : Nat)
    (b0 b1 : Fin 256) (g0 : d[c]? = some b0) (g1 : d[c + 1]? = some b1)
    (hcmd : b0.val = RipHeader.REQUEST ∨ b0.val = RipHeader.RESPONSE) (hv : b1.val ≠ 2) :
    h.Deserialize { data := d, cur := c } =
      Except.ok (0, { m_command := b0.val, m_rteList := h.m_rteList }) := by
  simp only [RipHeader.Deserialize, bind, Except.bind, Buffer.Iterator.ReadU8_at d c b0 g0,
    Buffer.Iterator.ReadU8_at d (c + 1) b1 g1, hcmd, hv, if_true, ne_eq, not_false_eq_true,
    pure, Except.pure]

/-- `RipHeader::Deserialize` when command and version are accepted and the 16-bit field that
follows is not 0. -/
theorem RipHeader.Deserialize_bad_zero (h : RipHeader) (d : List (Fin 256)) (c : Nat)
    (b0 b1 b2 b3 : Fin 256) (g0 : d[c]? = some b0) (g1 : d[c + 1]? = some b1)
    (g2 : d[c + 1 + 1]? = some b2) (g3 : d[c + 1 + 1 + 1]? = some b3)
    (hcmd : b0.val = RipHeader.REQUEST ∨ b0.val = RipHeader.RESPONSE) (hv : b1.val = 2)
    (hz : b3.val * 256 + b2.val ≠ 0) :
    h.Deserialize { data := d, cur := c } =
      Except.ok (0, { m_command := b0.val, m_rteList := h.m_rteList }) := by
  simp only [RipHeader.Deserialize, bind, Except.bind, Buffer.Iterator.ReadU8_at d c b0 g0,
    Buffer.Iterator.ReadU8_at d (c + 1) b1 g1,
    Buffer.Iterator.ReadU16_at d (c + 1 + 1) b2 b3 g2 g3, hcmd, hv, hz, if_true, ne_eq,
    not_true_eq_false, not_false_eq_true, if_false, pure, Except.pure]

/-- `RipHeader::Deserialize` when the four header bytes are accepted and the loop returns the
list `l`. -/
theorem RipHeader.Deserialize_accepted (h : RipHeader) (d : List (Fin 256)) (c : Nat)
    (b0 b1 b2 b3 : Fin 256) (g0 : d[c]? = some b0) (g1 : d[c + 1]? = some b1)
    (g2 : d[c + 1 + 1]? = some b2) (g3 : d[c + 1 + 1 + 1]? = some b3)
    (hcmd : b0.val = RipHeader.REQUEST ∨ b0.val = RipHeader.RESPONSE) (hv : b1.val = 2)
    (hz : b3.val * 256 + b2.val = 0) (l : List RipRte)
    (hl : RipHeader.deserializeRtes ((d.length - (c + 1 + 1 + 2)) / 20 % 256)
      { data := d, cur := c + 1 + 1 + 2 } h.m_rteList = Except.ok l) :
    h.Deserialize { data := d, cur := c } =
      Except.ok ((4 + l.length * 20) % 4294967296, { m_command := b0.val, m_rteList := l }) := by
  simp only [RipHeader.Deserialize, bind, Except.bind, Buffer.Iterator.ReadU8_at d c b0 g0,
    Buffer.Iterator.ReadU8_at d (c + 1) b1 g1,
    Buffer.Iterator.ReadU16_at d (c + 1 + 1) b2 b3 g2 g3, hcmd, hv, hz, if_true, ne_eq,
    not_true_eq_false, if_false, pure, Except.pure, Buffer.Iterator.GetRemainingSize, hl,
    RipHeader.GetSerializedSize, RipRte.GetSerializedSize]

/-- A header whose list has 858993459 entries: on the four header bytes `1 2 0 0` the size
`4 + 20 * 858993459 = 2^34` is returned as the 32-bit value 0. -/
theorem RipHeader.Deserialize_wraps (l : List RipRte) (hl : l.length = 858993459) :
    ({ m_command := 1, m_rteList := l } : RipHeader).Deserialize
        { data := [1, 2, 0, 0], cur := 0 } =
      Except.ok (0, { m_command := 1, m_rteList := l }) := by
  rw [RipHeader.Deserialize_no_entries]
  simp only [hl]

/-- C22, as stated, fails: a header that already holds 858993459 route entries deserializes
the four bytes `REQUEST`, version 2, zero field 0 and returns 0, because the size
`4 + 20 * 858993459 = 2^34` is returned as a 32-bit value; none of the three rejection
conditions holds, and 0 is not `4 + 20 *` the number of entries held afterwards. -/
theorem C22_deserialize_return_counterexample :
    ({ m_command := 1, m_rteList := List.replicate 858993459 RipRte.ctor } :
        RipHeader).Deserialize { data := [1, 2, 0, 0], cur := 0 } =
      Except.ok (0, { m_command := 1, m_rteList := List.replicate 858993459 RipRte.ctor }) ∧
    ¬ RipHeader.rejects 1 2 0 0 ∧
    (0 : Nat) ≠ 4 + 20 * (List.replicate 858993459 RipRte.ctor).length := by
  refine ⟨RipHeader.Deserialize_wraps _ (List.length_replicate _ _), ?_, ?_⟩
  · simp only [RipHeader.rejects, RipHeader.REQUEST, RipHeader.RESPONSE]
    decide
  · simp only [List.length_replicate]
    decide

/-- C22, amended: on a buffer with at least four bytes `b0 b1 b2 b3` at the position,
`RipHeader::Deserialize` returns. If `b0` is neither `REQUEST` nor `RESPONSE`, or `b1` is not 2,
or the 16-bit field `b2 b3` is not 0, it returns 0 and the list of route entries is as before.
Otherwise it returns `4 + 20 * k` as a 32-bit value, `k` the number of entries held afterwards,
which is the number held before plus at most 255. So whenever `4 + 20 * k` is below `2^32`, the
value returned is 0 exactly in the three rejection cases and `4 + 20 * k` in every other
case. -/
theorem C22_deserialize_return_amended (h : RipHeader) (i : Buffer.Iterator)
    (b0 b1 b2 b3 : Fin 256) (rest : List (Fin 256))
    (hbuf : i.data.drop i.cur = b0 :: b1 :: b2 :: b3 :: rest) :
    ∃ (ret : Nat) (h1 : RipHeader), h.Deserialize i = Except.ok (ret, h1) ∧
      (RipHeader.rejects b0 b1 b2 b3 → ret = 0 ∧ h1.m_rteList = h.m_rteList) ∧
      (¬ RipHeader.rejects b0 b1 b2 b3 →
        ret = (4 + 20 * h1.m_rteList.length) % 4294967296 ∧
        h.m_rteList.length ≤ h1.m_rteList.length ∧
        h1.m_rteList.length ≤ h.m_rteList.length + 255) ∧
      (4 + 20 * h1.m_rteList.length < 4294967296 →
        (ret = 0 ↔ RipHeader.rejects b0 b1 b2 b3) ∧
        (¬ RipHeader.rejects b0 b1 b2 b3 → ret = 4 + 20 * h1.m_rteList.length)) := by
  cases i with
  | mk d c =>
    simp only at hbuf
    have hlen : d.length = c + 4 + rest.length := by
      have := congrArg List.length hbuf
      simp only [List.length_drop, List.length_cons] at this
      omega
    have g : ∀ k : Nat, d[c + k]? = (b0 :: b1 :: b2 :: b3 :: rest)[k]? := by
      intro k
      rw [← hbuf, List.getElem?_drop]
    have g0 : d[c]? = some b0 := by simpa using g 0
    have g1 : d[c + 1]? = some b1 := by simpa using g 1
    have g2 : d[c + 1 + 1]? = some b2 := by simpa [Nat.add_assoc] using g 2
    have g3 : d[c + 1 + 1 + 1]? = some b3 := by simpa [Nat.add_assoc] using g 3
    have rejected : ∀ h1 : RipHeader, h.Deserialize { data := d, cur := c } = Except.ok (0, h1) →
        h1.m_rteList = h.m_rteList → RipHeader.rejects b0 b1 b2 b3 →
        ∃ (ret : Nat) (h1 : RipHeader),
          h.Deserialize { data := d, cur := c } = Except.ok (ret, h1) ∧
          (RipHeader.rejects b0 b1 b2 b3 → ret = 0 ∧ h1.m_rteList = h.m_rteList) ∧
          (¬ RipHeader.rejects b0 b1 b2 b3 →
            ret = (4 + 20 * h1.m_rteList.length) % 4294967296 ∧
            h.m_rteList.length ≤ h1.m_rteList.length ∧
            h1.m_rteList.length ≤ h.m_rteList.length + 255) ∧
          (4 + 20 * h1.m_rteList.length < 4294967296 →
            (ret = 0 ↔ RipHeader.rejects b0 b1 b2 b3) ∧
            (¬ RipHeader.rejects b0 b1 b2 b3 → ret = 4 + 20 * h1.m_rteList.length)) :=
      fun h1 hd hlist hrej =>
        ⟨0, h1, hd, fun _ => ⟨rfl, hlist⟩, fun hn => absurd hrej hn,
          fun _ => ⟨⟨fun _ => hrej, fun _ => rfl⟩, fun hn => absurd hrej hn⟩⟩
    by_cases hcmd : b0.val = RipHeader.REQUEST ∨ b0.val = RipHeader.RESPONSE
    · by_cases hv : b1.val = 2
      · by_cases hz : b3.val * 256 + b2.val = 0
        · have hnot : ¬ RipHeader.rejects b0 b1 b2 b3 := by
            intro hrej
            rcases hrej with ⟨h1, h2⟩ | hb1 | hb23
            · rcases hcmd with e | e
              · exact h1 e
              · exact h2 e
            · exact hb1 hv
            · exact hb23 ⟨by omega, by omega⟩
          have hrem : d.length - (c + 1 + 1 + 2) = rest.length := by
            rw [hlen]
            omega
          have hcount : 20 * (rest.length / 20 % 256) ≤ rest.length :=
            Nat.le_trans (Nat.mul_le_mul_left 20 (Nat.mod_le _ _)) (Nat.mul_div_le _ 20)
          have hroom : c + 1 + 1 + 2 + 20 * (rest.length / 20 % 256) ≤ d.length := by
            rw [hlen]
            omega
          obtain ⟨l, hl, hll⟩ := RipHeader.deserializeRtes_returns
            (rest.length / 20 % 256) { data := d, cur := c + 1 + 1 + 2 } h.m_rteList hroom
          have hk : l.length < 256 := by
            rw [hll]
            exact Nat.mod_lt _ (by decide)
          rw [← hrem] at hl
          have hd := RipHeader.Deserialize_accepted h d c b0 b1 b2 b3 g0 g1 g2 g3 hcmd hv hz
            (h.m_rteList ++ l) hl
          have hmul : 4 + (h.m_rteList ++ l).length * 20 = 4 + 20 * (h.m_rteList ++ l).length :=
            by rw [Nat.mul_comm]
          rw [hmul] at hd
          have hle1 : h.m_rteList.length ≤ (h.m_rteList ++ l).length := by
            rw [List.length_append]
            exact Nat.le_add_right _ _
          have hle2 : (h.m_rteList ++ l).length ≤ h.m_rteList.length + 255 := by
            rw [List.length_append]
            omega
          refine ⟨(4 + 20 * (h.m_rteList ++ l).length) % 4294967296,
            { m_command := b0.val, m_rteList := h.m_rteList ++ l }, hd,
            fun hrej => absurd hrej hnot, fun _ => ⟨rfl, hle1, hle2⟩, fun hsmall =>
            ⟨⟨fun h0 => ?_, fun hrej => absurd hrej hnot⟩, fun _ => Nat.mod_eq_of_lt hsmall⟩⟩
          rw [Nat.mod_eq_of_lt hsmall] at h0
          exact absurd h0 (by
            intro e
            have : 0 < 4 + 20 * (h.m_rteList ++ l).length := Nat.lt_of_lt_of_le (by decide)
              (Nat.le_add_right 4 _)
            rw [e] at this
            exact Nat.lt_irrefl 0 this)
        · exact rejected _
            (RipHeader.Deserialize_bad_zero h d c b0 b1 b2 b3 g0 g1 g2 g3 hcmd hv hz) rfl
            (Or.inr (Or.inr (fun hb => hz (by rw [hb.1, hb.2]))))
      · exact rejected _ (RipHeader.Deserialize_bad_version h d c b0 b1 g0 g1 hcmd hv) rfl
          (Or.inr (Or.inl hv))
    · exact rejected _ (RipHeader.Deserialize_bad_command h d c b0 g0 hcmd) rfl
        (Or.inl (not_or.mp hcmd))

/-- C22 amended, at a concrete buffer: the four header bytes `1 2 0 0` followed by the 20
bytes of one route entry, read into a newly constructed header. -/
theorem C22_deserialize_return_amended_witness :
    ∃ (ret : Nat) (h1 : RipHeader),
      RipHeader.ctor.Deserialize
          { data := [1, 2, 0, 0,
              0, 2, 0, 0, 127, 0, 0, 1, 0, 0, 0, 0, 0, 0, 0, 0, 0, 0, 0, 16]
            cur := 0 } = Except.ok (ret, h1) ∧
      (RipHeader.rejects 1 2 0 0 → ret = 0 ∧ h1.m_rteList = RipHeader.ctor.m_rteList) ∧
      (¬ RipHeader.rejects 1 2 0 0 →
        ret = (4 + 20 * h1.m_rteList.length) % 4294967296 ∧
        RipHeader.ctor.m_rteList.length ≤ h1.m_rteList.length ∧
        h1.m_rteList.length ≤ RipHeader.ctor.m_rteList.length + 255) ∧
      (4 + 20 * h1.m_rteList.length < 4294967296 →
        (ret = 0 ↔ RipHeader.rejects 1 2 0 0) ∧
        (¬ RipHeader.rejects 1 2 0 0 → ret = 4 + 20 * h1.m_rteList.length)) :=
  C22_deserialize_return_amended RipHeader.ctor
    { data := [1, 2, 0, 0,
        0, 2, 0, 0, 127, 0, 0, 1, 0, 0, 0, 0, 0, 0, 0, 0, 0, 0, 0, 16]
      cur := 0 }
    1 2 0 0 [0, 2, 0, 0, 127, 0, 0, 1, 0, 0, 0, 0, 0, 0, 0, 0, 0, 0, 0, 16] rfl

end RipHeaderProperties

end ns3
